import Mathlib

/-!
# vpc-ls: the correlation step and the region fan-out

A shallow embedding of `cmd/vpc-ls.go` (`getVpcs`, `mapSubnets`, `mapInstances`) and of
`main.go` (`populateVPC`, `getRegionData`).

Modelling conventions.

* A Go pointer `*T` is `Option T`; dereferencing `none` is the run-time panic
  `Fault.nilDeref`.  This covers the fields of the SDK records and the records themselves.
* A Go `map[string]V` is a finite map `GoMap V` with `String` keys.  It has no iteration
  order, so two maps with the same entries are equal.
* A map held in a struct field (`VPC.Subnets`, `Subnet.EC2s`) is `Option (GoMap V)`; `none`
  is the nil map of a zero-value struct.  Reading a nil map gives the zero value, writing to
  it is the panic `Fault.nilMapWrite`.
* Map-typed parameters (`vpcs`, `fullData`) are allocated maps, as their callers build them
  with `make` or a map literal.
* Go maps are references.  The graph is a tree: no two struct values share one map object,
  which is how `getVpcs` and `mapSubnets` build it (one `make` per value).  An in-place
  write through `vpcs[a].Subnets[b] = x` is therefore the rebuilt path from the root.
* A function that can panic returns `Except Fault _`; a pair `(value, error)` returned by Go
  is a pair with an `Option GoError`.
-/

namespace VpcLs

/-- Run-time panics of the program. -/
inductive Fault where
  /-- Invalid memory address or nil pointer dereference. -/
  | nilDeref
  /-- Assignment to entry in nil map. -/
  | nilMapWrite
  deriving DecidableEq

/-- A Go `map[string]V`. -/
abbrev GoMap (V : Type) : Type := Finmap (fun _ : String => V)

/-- Outcomes of a call can be compared. -/
instance instDecidableEqExcept {ε α : Type} [DecidableEq ε] [DecidableEq α] :
    DecidableEq (Except ε α)
  | .ok a, .ok b =>
    if h : a = b then isTrue (congrArg Except.ok h) else isFalse (fun h1 => h (Except.ok.inj h1))
  | .error a, .error b =>
    if h : a = b then isTrue (congrArg Except.error h)
    else isFalse (fun h1 => h (Except.error.inj h1))
  | .ok _, .error _ => isFalse (fun h => Except.noConfusion h)
  | .error _, .ok _ => isFalse (fun h => Except.noConfusion h)

/-- Pointer dereference `*p`. -/
def deref {α : Type} (p : Option α) : Except Fault α :=
  match p with
  | some a => .ok a
  | none => .error .nilDeref

/-! ## SDK records (the fields the program reads) -/

/-- Record `ec2.Vpc`. -/
structure ec2.Vpc where
  VpcId : Option String
  IsDefault : Option Bool
  CidrBlock : Option String
  deriving DecidableEq

/-- Record `ec2.Subnet`. -/
structure ec2.Subnet where
  VpcId : Option String
  SubnetId : Option String
  CidrBlock : Option String
  AvailabilityZone : Option String
  AvailabilityZoneId : Option String
  MapCustomerOwnedIpOnLaunch : Option Bool
  MapPublicIpOnLaunch : Option Bool
  deriving DecidableEq

/-- Record `ec2.InstanceNetworkInterface`. -/
structure ec2.InstanceNetworkInterface where
  NetworkInterfaceId : Option String
  PrivateIpAddress : Option String
  MacAddress : Option String
  PrivateDnsName : Option String
  deriving DecidableEq

/-- Record `ec2.InstanceState`. -/
structure ec2.InstanceState where
  Name : Option String
  deriving DecidableEq

/-- Record `ec2.Instance`. -/
structure ec2.Instance where
  InstanceId : Option String
  InstanceType : Option String
  SubnetId : Option String
  VpcId : Option String
  State : Option ec2.InstanceState
  PublicIpAddress : Option String
  PrivateIpAddress : Option String
  NetworkInterfaces : List (Option ec2.InstanceNetworkInterface)
  deriving DecidableEq

/-- Record `ec2.Reservation`. -/
structure ec2.Reservation where
  Instances : List (Option ec2.Instance)
  deriving DecidableEq

/-! ## The entity graph -/

/-- Go struct `NetworkInterface`. -/
structure NetworkInterface where
  Id : String
  PrivateIp : String
  MAC : String
  DNS : String
  RawNetworkInterface : Option ec2.InstanceNetworkInterface
  deriving DecidableEq

/-- Go struct `EC2`; the field `Type` is spelled `Type_` (`Type` is a Lean keyword). -/
structure EC2 where
  Id : String
  Type_ : String
  SubnetId : String
  VpcId : String
  State : String
  PublicIP : String
  PrivateIP : String
  Interfaces : List NetworkInterface
  RawEc2 : Option ec2.Instance
  deriving DecidableEq

/-- Go struct `Subnet`. -/
structure Subnet where
  Id : String
  CidrBlock : String
  AvailabilityZone : String
  AvailabilityZoneId : String
  Public : Bool
  RawSubnet : Option ec2.Subnet
  EC2s : Option (GoMap EC2)
  deriving DecidableEq

/-- Go struct `VPC`. -/
structure VPC where
  Id : String
  IsDefault : Bool
  CidrBlock : String
  RawVPC : Option ec2.Vpc
  Subnets : Option (GoMap Subnet)
  deriving DecidableEq

/-- The zero value of `Subnet`. -/
def Subnet.zero : Subnet :=
  { Id := "", CidrBlock := "", AvailabilityZone := "", AvailabilityZoneId := "",
    Public := false, RawSubnet := none, EC2s := none }

/-- The zero value of `VPC`. -/
def VPC.zero : VPC :=
  { Id := "", IsDefault := false, CidrBlock := "", RawVPC := none, Subnets := none }

/-- Index expression `vpcs[k]` read as a value: the zero value when the key is missing. -/
def indexVPC (vpcs : GoMap VPC) (k : String) : VPC :=
  (vpcs.lookup k).getD VPC.zero

/-- Index expression `m[k]` on a `map[string]Subnet` held in a field, read as a value: the
zero value when the map is nil or the key is missing. -/
def indexSubnet (m : Option (GoMap Subnet)) (k : String) : Subnet :=
  match m with
  | none => Subnet.zero
  | some sm => (sm.lookup k).getD Subnet.zero

/-! ## `getVpcs` -/

/-- An `error` value; only its message is kept. -/
structure GoError where
  msg : String
  deriving DecidableEq

/-- One iteration of the loop of `getVpcs` (lines 64-73). -/
def getVpcsStep (vpcs : GoMap VPC) (v : Option ec2.Vpc) : Except Fault (GoMap VPC) := do
  let r ← deref v
  let id ← deref r.VpcId
  let isDefault ← deref r.IsDefault
  let cidr ← deref r.CidrBlock
  let vpc : VPC :=
    { Id := id, IsDefault := isDefault, CidrBlock := cidr, RawVPC := v,
      Subnets := some ∅ }
  let key ← deref r.VpcId
  pure (vpcs.insert key vpc)

/-- Function `getVpcs`, from the point where `DescribeVpcsPages` has returned `err` and has
filled `vpclist`. -/
def getVpcs (vpclist : List (Option ec2.Vpc)) (err : Option GoError) :
    Except Fault (GoMap VPC × Option GoError) :=
  match err with
  | some e => .ok (∅, some ⟨"failed to get vpcs: " ++ e.msg⟩)
  | none => do
    let vpcs ← vpclist.foldlM getVpcsStep (∅ : GoMap VPC)
    pure (vpcs, none)

/-! ## `mapSubnets` -/

/-- Line 139: the two flags are read left to right, `||` skips its right operand when the
left one is true. -/
def isPublic (r : ec2.Subnet) : Except Fault Bool := do
  let c ← deref r.MapCustomerOwnedIpOnLaunch
  if c then pure true else deref r.MapPublicIpOnLaunch

/-- Lines 139-149 without the store: `isPublic`, then the operands of the assignment in the
order Go evaluates them. The index operands `*v.VpcId` and `*v.SubnetId` on the left come
first, the composite literal on the right follows. The result is the network id, the key
and the `Subnet` value to store. -/
def subnetOperands (v : Option ec2.Subnet) : Except Fault (String × String × Subnet) := do
  let r ← deref v
  let pub ← isPublic r
  let vpcId ← deref r.VpcId
  let key ← deref r.SubnetId
  let id ← deref r.SubnetId
  let cidr ← deref r.CidrBlock
  let az ← deref r.AvailabilityZone
  let azId ← deref r.AvailabilityZoneId
  pure (vpcId, key,
    { Id := id, CidrBlock := cidr, AvailabilityZone := az, AvailabilityZoneId := azId,
      RawSubnet := v, Public := pub, EC2s := some ∅ })

/-- The store `vpcs[vpcId].Subnets[key] = subnet` of line 141. `vpcs[vpcId]` is read as a
value (the zero `VPC` when the key is missing), the write goes into its `Subnets` map. -/
def assignSubnet (vpcs : GoMap VPC) (vpcId key : String) (subnet : Subnet) :
    Except Fault (GoMap VPC) :=
  let vpc := indexVPC vpcs vpcId
  match vpc.Subnets with
  | none => .error .nilMapWrite
  | some sm => .ok (vpcs.insert vpcId { vpc with Subnets := some (sm.insert key subnet) })

/-- The body of the loop of `mapSubnets` (lines 139-149). -/
def mapSubnetsStep (vpcs : GoMap VPC) (v : Option ec2.Subnet) : Except Fault (GoMap VPC) := do
  let (vpcId, key, subnet) ← subnetOperands v
  assignSubnet vpcs vpcId key subnet

/-- Function `mapSubnets`. -/
def mapSubnets (vpcs : GoMap VPC) (subnets : List (Option ec2.Subnet)) :
    Except Fault (GoMap VPC) :=
  subnets.foldlM mapSubnetsStep vpcs

/-! ## `mapInstances` -/

/-- The body of the innermost loop (lines 159-165): one `append`. -/
def appendInterface (acc : List NetworkInterface)
    (networkInterface : Option ec2.InstanceNetworkInterface) :
    Except Fault (List NetworkInterface) := do
  let r ← deref networkInterface
  let id ← deref r.NetworkInterfaceId
  let ip ← deref r.PrivateIpAddress
  let mac ← deref r.MacAddress
  let dns ← deref r.PrivateDnsName
  pure (acc ++ [{ Id := id, PrivateIp := ip, MAC := mac, DNS := dns,
                  RawNetworkInterface := networkInterface }])

/-- Lines 157-178 without the store: the interface loop, then the operands of the
assignment in the order Go evaluates them (index operands on the left, then the composite
literal). The result is the network id, the subnet id, the key and the `EC2` value. -/
def instanceOperands (inst : Option ec2.Instance) :
    Except Fault (String × String × String × EC2) := do
  let r ← deref inst
  let networkInterfaces ← r.NetworkInterfaces.foldlM appendInterface []
  let vpcId ← deref r.VpcId
  let subnetId ← deref r.SubnetId
  let key ← deref r.InstanceId
  let id ← deref r.InstanceId
  let type ← deref r.InstanceType
  let sid ← deref r.SubnetId
  let vid ← deref r.VpcId
  let st ← deref r.State
  let state ← deref st.Name
  let pubIp ← deref r.PublicIpAddress
  let privIp ← deref r.PrivateIpAddress
  pure (vpcId, subnetId, key,
    { Id := id, Type_ := type, SubnetId := sid, VpcId := vid, State := state,
      PublicIP := pubIp, PrivateIP := privIp, Interfaces := networkInterfaces,
      RawEc2 := inst })

/-- The store `vpcs[vpcId].Subnets[subnetId].EC2s[key] = ec2` of line 168. The two index
expressions on the way are reads (zero values when a key is missing or a map is nil), the
write goes into the `EC2s` map of the `Subnet` reached. -/
def assignEC2 (vpcs : GoMap VPC) (vpcId subnetId key : String) (ec2 : EC2) :
    Except Fault (GoMap VPC) :=
  let vpc := indexVPC vpcs vpcId
  let subnet := indexSubnet vpc.Subnets subnetId
  match subnet.EC2s with
  | none => .error .nilMapWrite
  | some em =>
    let subnet1 : Subnet := { subnet with EC2s := some (em.insert key ec2) }
    let subnets1 : GoMap Subnet := (vpc.Subnets.getD ∅).insert subnetId subnet1
    .ok (vpcs.insert vpcId { vpc with Subnets := some subnets1 })

/-- The body of the loop over the instances of a reservation (lines 157-178). -/
def mapInstancesStep (vpcs : GoMap VPC) (inst : Option ec2.Instance) :
    Except Fault (GoMap VPC) := do
  let (vpcId, subnetId, key, ec2) ← instanceOperands inst
  assignEC2 vpcs vpcId subnetId key ec2

/-- The body of the outer loop (lines 156-179). -/
def mapReservation (vpcs : GoMap VPC) (reservation : Option ec2.Reservation) :
    Except Fault (GoMap VPC) := do
  let r ← deref reservation
  r.Instances.foldlM mapInstancesStep vpcs

/-- Function `mapInstances`. -/
def mapInstances (vpcs : GoMap VPC) (reservations : List (Option ec2.Reservation)) :
    Except Fault (GoMap VPC) :=
  reservations.foldlM mapReservation vpcs

/-! ## `main.go`: `populateVPC` and `getRegionData`

The `VPC` type of this package, `RecievedData`, the twelve fetchers, `instantiateVolumes`
and the `map...` functions called by `populateVPC` are declared outside the given sources.
They are parameters: `V` is the type of a network, and each call is a function of the
mapping it is applied to, closed over the accumulator `data` it reads. -/

/-- What `populateVPC` uses of its surroundings, at the point where `data.wg.Wait()` has
returned. -/
structure Collaborators (V : Type) where
  /-- Field `data.Error` after the twelve fetchers have completed. -/
  dataError : Option GoError
  /-- Call `mapVpcs(vpcs, data.Vpcs)`. -/
  mapVpcs : GoMap V → Except Fault (GoMap V)
  /-- Call `mapSubnets(vpcs, data.Subnets)`. -/
  mapSubnets : GoMap V → Except Fault (GoMap V)
  /-- Call `mapInstances(vpcs, data.Instances)`. -/
  mapInstances : GoMap V → Except Fault (GoMap V)
  /-- Call `instantiateVolumes(svc, vpcs)`: the mapping it leaves and the error it returns. -/
  instantiateVolumes : GoMap V → Except Fault (GoMap V × Option GoError)
  /-- Call `mapNatGateways(vpcs, data.NatGateways)`. -/
  mapNatGateways : GoMap V → Except Fault (GoMap V)
  /-- Call `mapRouteTables(vpcs, data.RouteTables)`. -/
  mapRouteTables : GoMap V → Except Fault (GoMap V)
  /-- Call `mapInternetGateways(vpcs, data.InternetGateways)`. -/
  mapInternetGateways : GoMap V → Except Fault (GoMap V)
  /-- Call `mapEgressOnlyInternetGateways(vpcs, data.EOInternetGateways)`. -/
  mapEgressOnlyInternetGateways : GoMap V → Except Fault (GoMap V)
  /-- Call `mapVPNGateways(vpcs, data.VPNGateways)`. -/
  mapVPNGateways : GoMap V → Except Fault (GoMap V)
  /-- Call `mapTransitGatewayVpcAttachments(vpcs, data.TransitGateways)`. -/
  mapTransitGatewayVpcAttachments : GoMap V → Except Fault (GoMap V)
  /-- Call `mapVpcPeeringConnections(vpcs, data.PeeringConnections)`. -/
  mapVpcPeeringConnections : GoMap V → Except Fault (GoMap V)
  /-- Call `mapNetworkInterfaces(vpcs, data.NetworkInterfaces)`. -/
  mapNetworkInterfaces : GoMap V → Except Fault (GoMap V)
  /-- Call `mapVpcEndpoints(vpcs, data.VPCEndpoints)`. -/
  mapVpcEndpoints : GoMap V → Except Fault (GoMap V)

/-- Lines 60-62: the correlation that precedes the storage-volume step. -/
def correlateHead {V : Type} (c : Collaborators V) (vpcs : GoMap V) :
    Except Fault (GoMap V) := do
  let vpcs ← c.mapVpcs vpcs
  let vpcs ← c.mapSubnets vpcs
  c.mapInstances vpcs

/-- Lines 67-75: the correlation that follows the storage-volume step. -/
def correlateRest {V : Type} (c : Collaborators V) (vpcs : GoMap V) :
    Except Fault (GoMap V) := do
  let vpcs ← c.mapNatGateways vpcs
  let vpcs ← c.mapRouteTables vpcs
  let vpcs ← c.mapInternetGateways vpcs
  let vpcs ← c.mapEgressOnlyInternetGateways vpcs
  let vpcs ← c.mapVPNGateways vpcs
  let vpcs ← c.mapTransitGatewayVpcAttachments vpcs
  let vpcs ← c.mapVpcPeeringConnections vpcs
  let vpcs ← c.mapNetworkInterfaces vpcs
  c.mapVpcEndpoints vpcs

/-- Function `populateVPC`, from `data.wg.Wait()` on (lines 53-77). -/
def populateVPC {V : Type} (c : Collaborators V) : Except Fault (GoMap V × Option GoError) :=
  match c.dataError with
  | some e => .ok (∅, some ⟨"failed to populate VPCs: " ++ e.msg⟩)
  | none => do
    let vpcs : GoMap V := ∅
    let vpcs ← correlateHead c vpcs
    let (vpcs, err) ← c.instantiateVolumes vpcs
    match err with
    | some e => .ok (∅, some ⟨"failed to populate VPCs: " ++ e.msg⟩)
    | none => do
      let vpcs ← correlateRest c vpcs
      pure (vpcs, none)

/-- Go struct `RegionData`. -/
structure RegionData (V : Type) where
  VPCs : GoMap V

/-- Function `getRegionData` (lines 80-91); `populate` is the call `populateVPC(region)`.
The write to `fullData` happens under the lock `mu`. -/
def getRegionData {V : Type} (populate : String → Except Fault (GoMap V × Option GoError))
    (fullData : GoMap (RegionData V)) (region : String) :
    Except Fault (GoMap (RegionData V)) := do
  let (vpcs, err) ← populate region
  match err with
  | some _ => pure fullData
  | none => pure (fullData.insert region { VPCs := vpcs })

/-- The mapping `fullData` of `doAllRegions` at `wg.Wait()` (lines 98-106). Every goroutine
runs `getRegionData`; the writes are serialised by `mu`, `schedule` is the order in which
the goroutines take the lock. -/
def doAllRegions {V : Type} (populate : String → Except Fault (GoMap V × Option GoError))
    (schedule : List String) : Except Fault (GoMap (RegionData V)) :=
  schedule.foldlM (getRegionData populate) (∅ : GoMap (RegionData V))

/-! ## Observations on a graph -/

/-- The `Subnets` map of network `n`; empty when the network is missing or its map is nil. -/
def subnetsOf (vpcs : GoMap VPC) (n : String) : GoMap Subnet :=
  ((vpcs.lookup n).bind VPC.Subnets).getD ∅

/-- The subnet stored under network `n` and subnet id `s`. -/
def subnetAt (vpcs : GoMap VPC) (n s : String) : Option Subnet :=
  (subnetsOf vpcs n).lookup s

/-- The `EC2s` map of subnet `s` of network `n`; empty when there is none. -/
def ec2sOf (vpcs : GoMap VPC) (n s : String) : GoMap EC2 :=
  ((subnetAt vpcs n s).bind Subnet.EC2s).getD ∅

/-- The instance stored under network `n`, subnet `s` and instance id `i`. -/
def ec2At (vpcs : GoMap VPC) (n s i : String) : Option EC2 :=
  (ec2sOf vpcs n s).lookup i

/-- The number of subnets in the graph. -/
def totalSubnets (vpcs : GoMap VPC) : Nat :=
  vpcs.keys.sum (fun n => (subnetsOf vpcs n).keys.card)

/-- Every network has an initialised `Subnets` map. -/
def Initialised (vpcs : GoMap VPC) : Prop :=
  ∀ n vpc, vpcs.lookup n = some vpc → vpc.Subnets ≠ none

/-- Every network has an empty, initialised `Subnets` map. -/
def Seeded (vpcs : GoMap VPC) : Prop :=
  ∀ n vpc, vpcs.lookup n = some vpc → vpc.Subnets = some ∅

/-- The attributes of a network other than its `Subnets` map. -/
def VPC.attrs (v : VPC) : String × Bool × String × Option ec2.Vpc :=
  (v.Id, v.IsDefault, v.CidrBlock, v.RawVPC)

/-- The attributes of a subnet other than its `EC2s` map. -/
def Subnet.attrs (s : Subnet) :
    String × String × String × String × Bool × Option ec2.Subnet :=
  (s.Id, s.CidrBlock, s.AvailabilityZone, s.AvailabilityZoneId, s.Public, s.RawSubnet)

/-- Every field of a subnet record that `mapSubnets` dereferences is present. -/
def ec2.Subnet.allPresent (r : ec2.Subnet) : Bool :=
  r.VpcId.isSome && r.SubnetId.isSome && r.CidrBlock.isSome && r.AvailabilityZone.isSome &&
    r.AvailabilityZoneId.isSome && r.MapCustomerOwnedIpOnLaunch.isSome &&
    r.MapPublicIpOnLaunch.isSome

/-- The subnet id an element of the subnet list carries, if any. -/
def subnetIdOf (v : Option ec2.Subnet) : Option String :=
  v.bind ec2.Subnet.SubnetId

/-- Every element of a subnet list is a record with all fields present whose network id is
a key of the mapping. -/
def WellReferenced (vpcs : GoMap VPC) (l : List (Option ec2.Subnet)) : Prop :=
  ∀ v ∈ l, ∃ r, v = some r ∧ r.allPresent = true ∧ ∀ n, r.VpcId = some n → n ∈ vpcs

/-- Every field of an interface record is present. -/
def ec2.InstanceNetworkInterface.allPresent (r : ec2.InstanceNetworkInterface) : Bool :=
  r.NetworkInterfaceId.isSome && r.PrivateIpAddress.isSome && r.MacAddress.isSome &&
    r.PrivateDnsName.isSome

/-- An element of the interface list is a record with all fields present. -/
def interfacePresent (ni : Option ec2.InstanceNetworkInterface) : Bool :=
  match ni with
  | some r => r.allPresent
  | none => false

/-- Every field of an instance record that `mapInstances` dereferences is present, those
of its state and of its interfaces included. -/
def ec2.Instance.allPresent (r : ec2.Instance) : Bool :=
  r.InstanceId.isSome && r.InstanceType.isSome && r.SubnetId.isSome && r.VpcId.isSome &&
    (r.State.bind ec2.InstanceState.Name).isSome && r.PublicIpAddress.isSome &&
    r.PrivateIpAddress.isSome && r.NetworkInterfaces.all interfacePresent

/-- The stored interface `x` carries the id, private address, MAC and DNS name of the
record `ni`. -/
def Carries (x : NetworkInterface) (ni : Option ec2.InstanceNetworkInterface) : Prop :=
  ∃ r, ni = some r ∧ r.NetworkInterfaceId = some x.Id ∧ r.PrivateIpAddress = some x.PrivateIp ∧
    r.MacAddress = some x.MAC ∧ r.PrivateDnsName = some x.DNS ∧ x.RawNetworkInterface = ni

/-- Every subnet of the graph has an empty, initialised `EC2s` map. -/
def FreshSubnets (vpcs : GoMap VPC) : Prop :=
  ∀ n s sn, subnetAt vpcs n s = some sn → sn.EC2s = some ∅

/-- Every element of a reservation list is a reservation whose elements are instance records
with all fields present. -/
def AllInstancesPresent (rs : List (Option ec2.Reservation)) : Prop :=
  ∀ v ∈ rs, ∃ res, v = some res ∧
    ∀ w ∈ res.Instances, ∃ inst, w = some inst ∧ inst.allPresent = true

/-- The instance record references a subnet that the mapping does not hold under the
network the record names; this covers a network that is not in the mapping. -/
def Orphan (vpcs : GoMap VPC) (inst : ec2.Instance) : Prop :=
  ∀ n s, inst.VpcId = some n → inst.SubnetId = some s → s ∉ subnetsOf vpcs n

/-! ## Concrete inputs

The scenario of the specification: network `vpc-1`, subnet `subnet-1`, instance `i-1` with
one interface `eni-1`. Attributes the scenario leaves open are filled in. -/

/-- Network `vpc-1` (default = false, cidr = 10.0.0.0/16). -/
def scenarioVpc : ec2.Vpc :=
  { VpcId := some "vpc-1", IsDefault := some false, CidrBlock := some "10.0.0.0/16" }

/-- Subnet `subnet-1` (vpc-1, az = us-east-1a, mapPublicIp = true). -/
def scenarioSubnet : ec2.Subnet :=
  { VpcId := some "vpc-1", SubnetId := some "subnet-1", CidrBlock := some "10.0.1.0/24",
    AvailabilityZone := some "us-east-1a", AvailabilityZoneId := some "use1-az1",
    MapCustomerOwnedIpOnLaunch := some false, MapPublicIpOnLaunch := some true }

/-- A second subnet of `vpc-1`, with only the customer-owned flag set. -/
def secondSubnet : ec2.Subnet :=
  { VpcId := some "vpc-1", SubnetId := some "subnet-2", CidrBlock := some "10.0.2.0/24",
    AvailabilityZone := some "us-east-1b", AvailabilityZoneId := some "use1-az2",
    MapCustomerOwnedIpOnLaunch := some true, MapPublicIpOnLaunch := some false }

/-- Subnet `subnet-1` without an IPv4 address block. -/
def subnetNoCidr : ec2.Subnet :=
  { scenarioSubnet with CidrBlock := none }

/-- A subnet record that references network `vpc-9`. -/
def orphanSubnet : ec2.Subnet :=
  { scenarioSubnet with VpcId := some "vpc-9", SubnetId := some "subnet-9" }

/-- Interface `eni-1`. -/
def scenarioInterface : ec2.InstanceNetworkInterface :=
  { NetworkInterfaceId := some "eni-1", PrivateIpAddress := some "10.0.1.5",
    MacAddress := some "0a:00:00:00:00:01", PrivateDnsName := some "ip-10-0-1-5.internal" }

/-- A second interface, `eni-0`. -/
def secondInterface : ec2.InstanceNetworkInterface :=
  { NetworkInterfaceId := some "eni-0", PrivateIpAddress := some "10.0.1.6",
    MacAddress := some "0a:00:00:00:00:02", PrivateDnsName := some "ip-10-0-1-6.internal" }

/-- Instance `i-1` (subnet-1, vpc-1, state = running, one interface `eni-1`); the scenario
gives it no public address. -/
def scenarioInstance : ec2.Instance :=
  { InstanceId := some "i-1", InstanceType := some "t3.micro", SubnetId := some "subnet-1",
    VpcId := some "vpc-1", State := some { Name := some "running" },
    PublicIpAddress := none, PrivateIpAddress := some "10.0.1.5",
    NetworkInterfaces := [some scenarioInterface] }

/-- Instance `i-1` with a public address and two interfaces, returned as `[eni-1, eni-0]`. -/
def publicInstance : ec2.Instance :=
  { scenarioInstance with
    PublicIpAddress := some "203.0.113.7",
    NetworkInterfaces := [some scenarioInterface, some secondInterface] }

/-- Instance `i-1` with a public address, placed in `subnet-2`. -/
def strayInstance : ec2.Instance :=
  { publicInstance with SubnetId := some "subnet-2" }

/-- The mapping `getVpcs` returns for the scenario: `vpc-1` with an empty `Subnets` map. -/
def seededGraph : GoMap VPC :=
  Finmap.insert "vpc-1"
    { Id := "vpc-1", IsDefault := false, CidrBlock := "10.0.0.0/16",
      RawVPC := some scenarioVpc, Subnets := some ∅ } ∅

/-- The `Subnet` that `mapSubnets` builds from `scenarioSubnet`. -/
def scenarioSubnetValue : Subnet :=
  { Id := "subnet-1", CidrBlock := "10.0.1.0/24", AvailabilityZone := "us-east-1a",
    AvailabilityZoneId := "use1-az1", Public := true, RawSubnet := some scenarioSubnet,
    EC2s := some ∅ }

/-- The mapping after `mapSubnets` on the scenario: `vpc-1` holding `subnet-1`. -/
def scenarioGraph : GoMap VPC :=
  Finmap.insert "vpc-1"
    { Id := "vpc-1", IsDefault := false, CidrBlock := "10.0.0.0/16",
      RawVPC := some scenarioVpc,
      Subnets := some (Finmap.insert "subnet-1" scenarioSubnetValue ∅) } ∅

/-- Collaborators of `populateVPC` for the scenario: no fetcher fails, the three correlation
steps are those of `cmd/vpc-ls.go` on the scenario records, the storage-volume step fails,
the remaining steps leave the mapping as it is. -/
def volumesFail : Collaborators VPC :=
  { dataError := none
    mapVpcs := fun _ => .ok seededGraph
    mapSubnets := fun g => mapSubnets g [some scenarioSubnet]
    mapInstances := fun g => mapInstances g [some { Instances := [some publicInstance] }]
    instantiateVolumes := fun g => .ok (g, some ⟨"DescribeVolumes: RequestLimitExceeded"⟩)
    mapNatGateways := .ok
    mapRouteTables := .ok
    mapInternetGateways := .ok
    mapEgressOnlyInternetGateways := .ok
    mapVPNGateways := .ok
    mapTransitGatewayVpcAttachments := .ok
    mapVpcPeeringConnections := .ok
    mapNetworkInterfaces := .ok
    mapVpcEndpoints := .ok }

/-- The scenario graph with instance `i-1` attached: what the head of the correlation
builds for `volumesFail`. -/
def correlatedGraph : GoMap VPC :=
  match mapInstances scenarioGraph [some { Instances := [some publicInstance] }] with
  | .ok g => g
  | .error _ => ∅

/-- Outcome of `populateVPC` per region: region A (`us-east-1`) succeeds with the scenario
graph, every other region fails. -/
def populateRegions (region : String) : Except Fault (GoMap VPC × Option GoError) :=
  if region = "us-east-1" then .ok (scenarioGraph, none)
  else .ok (∅, some ⟨"failed to populate VPCs: AuthFailure"⟩)

/-! ## The `Except` monad -/

@[simp] theorem ok_bind {ε α β : Type} (a : α) (f : α → Except ε β) :
    (Except.ok a >>= f) = f a := rfl

@[simp] theorem error_bind {ε α β : Type} (e : ε) (f : α → Except ε β) :
    ((Except.error e : Except ε α) >>= f) = Except.error e := rfl

@[simp] theorem pure_eq_ok {ε α : Type} (a : α) : (pure a : Except ε α) = Except.ok a := rfl

@[simp] theorem deref_some {α : Type} (a : α) : deref (some a) = .ok a := rfl

@[simp] theorem deref_none {α : Type} : deref (none : Option α) = .error .nilDeref := rfl

theorem deref_error {α : Type} {p : Option α} {e : Fault} (h : deref p = .error e) :
    e = .nilDeref := by
  cases p <;> simp at h
  exact h.symm

/-! ## The store of `mapSubnets` -/

theorem assignSubnet_of_lookup {vpcs : GoMap VPC} {n : String} {vpc : VPC}
    {sm : GoMap Subnet} (s : String) (sub : Subnet)
    (h : vpcs.lookup n = some vpc) (hs : vpc.Subnets = some sm) :
    assignSubnet vpcs n s sub
      = .ok (vpcs.insert n { vpc with Subnets := some (sm.insert s sub) }) := by
  simp [assignSubnet, indexVPC, h, hs]

theorem assignSubnet_of_missing {vpcs : GoMap VPC} {n : String} (s : String) (sub : Subnet)
    (h : vpcs.lookup n = none) : assignSubnet vpcs n s sub = .error .nilMapWrite := by
  simp [assignSubnet, indexVPC, h, VPC.zero]

theorem assignSubnet_of_nil {vpcs : GoMap VPC} {n : String} {vpc : VPC} (s : String)
    (sub : Subnet) (h : vpcs.lookup n = some vpc) (hs : vpc.Subnets = none) :
    assignSubnet vpcs n s sub = .error .nilMapWrite := by
  simp [assignSubnet, indexVPC, h, hs]

theorem assignSubnet_cases (vpcs : GoMap VPC) (n s : String) (sub : Subnet) :
    (assignSubnet vpcs n s sub = .error .nilMapWrite ∧
      ∀ vpc, vpcs.lookup n = some vpc → vpc.Subnets = none) ∨
    ∃ vpc sm, vpcs.lookup n = some vpc ∧ vpc.Subnets = some sm ∧
      assignSubnet vpcs n s sub
        = .ok (vpcs.insert n { vpc with Subnets := some (sm.insert s sub) }) := by
  cases h : vpcs.lookup n with
  | none => exact Or.inl ⟨assignSubnet_of_missing s sub h, by simp⟩
  | some vpc =>
    cases hs : vpc.Subnets with
    | none => exact Or.inl ⟨assignSubnet_of_nil s sub h hs, by
        intro v hv; cases hv; exact hs⟩
    | some sm => exact Or.inr ⟨vpc, sm, rfl, hs, assignSubnet_of_lookup s sub h hs⟩

/-! ## Loops -/

theorem foldlM_ok_induction {σ α : Type} {step : σ → α → Except Fault σ} (I : σ → Prop)
    (l : List α) (hstep : ∀ g x out, x ∈ l → I g → step g x = .ok out → I out) :
    ∀ g out, I g → l.foldlM step g = .ok out → I out := by
  induction l with
  | nil =>
    intro g out hg h
    simp at h
    exact h ▸ hg
  | cons x xs ih =>
    intro g out hg h
    rw [List.foldlM_cons] at h
    cases hx : step g x with
    | error e => rw [hx] at h; simp at h
    | ok g1 =>
      rw [hx] at h
      simp only [ok_bind] at h
      exact ih (fun g2 y o hy => hstep g2 y o (List.mem_cons_of_mem _ hy)) g1 out
        (hstep g x g1 (List.mem_cons_self _ _) hg hx) h

theorem foldlM_error_of_mem {σ α : Type} {step : σ → α → Except Fault σ} (I : σ → Prop)
    (l : List α) (x : α) (hx : x ∈ l)
    (hstep : ∀ g y out, I g → step g y = .ok out → I out)
    (hfail : ∀ g, I g → ∃ e, step g x = .error e) :
    ∀ g, I g → ∃ e, l.foldlM step g = .error e := by
  induction l with
  | nil => simp at hx
  | cons y ys ih =>
    intro g hg
    rw [List.foldlM_cons]
    cases hy : step g y with
    | error e => exact ⟨e, rfl⟩
    | ok g1 =>
      simp only [ok_bind]
      rcases List.mem_cons.mp hx with h | h
      · subst h
        obtain ⟨e, he⟩ := hfail g hg
        rw [he] at hy
        simp at hy
      · exact ih h g1 (hstep g y g1 hg hy)

theorem foldlM_ok_of_forall {σ α : Type} {step : σ → α → Except Fault σ} (I : σ → Prop)
    (l : List α) (hstep : ∀ g x, x ∈ l → I g → ∃ out, step g x = .ok out ∧ I out) :
    ∀ g, I g → ∃ out, l.foldlM step g = .ok out ∧ I out := by
  induction l with
  | nil => intro g hg; exact ⟨g, rfl, hg⟩
  | cons x xs ih =>
    intro g hg
    obtain ⟨g1, h1, hI⟩ := hstep g x (List.mem_cons_self _ _) hg
    rw [List.foldlM_cons, h1]
    exact ih (fun g2 y hy => hstep g2 y (List.mem_cons_of_mem _ hy)) g1 hI

/-! ## Lookups after a write -/

theorem keys_insert_of_mem {V : Type} {m : GoMap V} {k : String} (v : V) (h : k ∈ m) :
    (m.insert k v).keys = m.keys := by
  ext a
  simp only [Finmap.mem_keys, Finmap.mem_insert]
  constructor
  · rintro (rfl | h1)
    · exact h
    · exact h1
  · exact Or.inr

theorem keys_insert {V : Type} (m : GoMap V) (k : String) (v : V) :
    (m.insert k v).keys = insert k m.keys := by
  ext a
  simp [Finmap.mem_keys, Finmap.mem_insert]

theorem lookup_insert_eq {V : Type} (m : GoMap V) (k a : String) (v : V) :
    (m.insert k v).lookup a = if a = k then some v else m.lookup a := by
  by_cases h : a = k
  · subst h; simp [Finmap.lookup_insert]
  · simp [h, Finmap.lookup_insert_of_ne]

theorem subnetsOf_insert (vpcs : GoMap VPC) (n k : String) (vpc : VPC) :
    subnetsOf (vpcs.insert n vpc) k
      = if k = n then vpc.Subnets.getD ∅ else subnetsOf vpcs k := by
  unfold subnetsOf
  rw [lookup_insert_eq]
  by_cases h : k = n <;> simp [h]


theorem exists_ok_of_isSome {ε α : Type} {x : Except ε α} (h : x.toOption.isSome = true) :
    ∃ a, x = .ok a := by
  cases x with
  | error e => simp [Except.toOption] at h
  | ok a => exact ⟨a, rfl⟩
/-! ## The operands of `mapSubnets` -/

theorem isPublic_error {r : ec2.Subnet} {e : Fault} (h : isPublic r = .error e) :
    e = .nilDeref := by
  unfold isPublic at h
  rcases hc : r.MapCustomerOwnedIpOnLaunch with _ | c <;> rw [hc] at h
  · simp at h; exact h.symm
  · rcases c with _ | _
    · simp at h; exact deref_error h
    · simp at h

theorem isPublic_of_some {r : ec2.Subnet} {a b : Bool}
    (ha : r.MapPublicIpOnLaunch = some a) (hb : r.MapCustomerOwnedIpOnLaunch = some b) :
    isPublic r = .ok (a || b) := by
  unfold isPublic
  rw [ha, hb]
  cases a <;> cases b <;> rfl

theorem subnetOperands_ok_iff (v : Option ec2.Subnet) (t : String × String × Subnet) :
    subnetOperands v = .ok t ↔
      ∃ r pub n s cidr az azId, v = some r ∧ isPublic r = .ok pub ∧ r.VpcId = some n ∧
        r.SubnetId = some s ∧ r.CidrBlock = some cidr ∧ r.AvailabilityZone = some az ∧
        r.AvailabilityZoneId = some azId ∧
        t = (n, s, { Id := s, CidrBlock := cidr, AvailabilityZone := az,
                     AvailabilityZoneId := azId, Public := pub, RawSubnet := v,
                     EC2s := some ∅ }) := by
  unfold subnetOperands
  rcases v with _ | r
  · simp
  · rcases hp : isPublic r with e | pub
    · simp [hp]
    · rcases h1 : r.VpcId with _ | n
      · simp [hp, h1]
      · rcases h2 : r.SubnetId with _ | s
        · simp [hp, h1, h2]
        · rcases h3 : r.CidrBlock with _ | cidr
          · simp [hp, h1, h2, h3]
          · rcases h4 : r.AvailabilityZone with _ | az
            · simp [hp, h1, h2, h3, h4]
            · rcases h5 : r.AvailabilityZoneId with _ | azId
              · simp [hp, h1, h2, h3, h4, h5]
              · simp [hp, h1, h2, h3, h4, h5, eq_comm]
                cases pub <;> simp

theorem subnetOperands_error {v : Option ec2.Subnet} {e : Fault}
    (h : subnetOperands v = .error e) : e = .nilDeref := by
  unfold subnetOperands at h
  rcases v with _ | r
  · simp at h; exact h.symm
  · rcases hp : isPublic r with e1 | pub
    · rw [deref_some, ok_bind, hp] at h
      simp at h
      rw [← h]; exact isPublic_error hp
    · rw [deref_some, ok_bind, hp, ok_bind] at h
      rcases h1 : r.VpcId with _ | n <;> rw [h1] at h
      · simp at h; exact h.symm
      rcases h2 : r.SubnetId with _ | s <;> rw [h2] at h
      · simp at h; exact h.symm
      rcases h3 : r.CidrBlock with _ | cidr <;> rw [h3] at h
      · simp at h; exact h.symm
      rcases h4 : r.AvailabilityZone with _ | az <;> rw [h4] at h
      · simp at h; exact h.symm
      rcases h5 : r.AvailabilityZoneId with _ | azId <;> rw [h5] at h
      · simp at h; exact h.symm
      · simp at h

/-! ## The store of `mapSubnets`: what it leaves -/

theorem assignSubnet_ok_iff (vpcs out : GoMap VPC) (n s : String) (sub : Subnet) :
    assignSubnet vpcs n s sub = .ok out ↔
      ∃ vpc sm, vpcs.lookup n = some vpc ∧ vpc.Subnets = some sm ∧
        out = vpcs.insert n { vpc with Subnets := some (sm.insert s sub) } := by
  rcases assignSubnet_cases vpcs n s sub with ⟨h, hnil⟩ | ⟨vpc, sm, h1, h2, h3⟩
  · rw [h]
    constructor
    · intro h'; simp at h'
    · rintro ⟨vpc, sm, h1, h2, -⟩
      rw [hnil vpc h1] at h2
      simp at h2
  · rw [h3]
    constructor
    · intro h'
      exact ⟨vpc, sm, h1, h2, (Except.ok.inj h').symm⟩
    · rintro ⟨vpc1, sm1, h4, h5, h6⟩
      rw [h1] at h4
      cases h4
      rw [h2] at h5
      cases h5
      rw [h6]

theorem assignSubnet_error {vpcs : GoMap VPC} {n s : String} {sub : Subnet} {e : Fault}
    (h : assignSubnet vpcs n s sub = .error e) : e = .nilMapWrite := by
  rcases assignSubnet_cases vpcs n s sub with ⟨h1, -⟩ | ⟨vpc, sm, -, -, h3⟩
  · rw [h1] at h; exact (Except.error.inj h).symm
  · rw [h3] at h; simp at h

theorem subnetsOf_of_lookup {vpcs : GoMap VPC} {n : String} {vpc : VPC} {sm : GoMap Subnet}
    (h : vpcs.lookup n = some vpc) (hs : vpc.Subnets = some sm) : subnetsOf vpcs n = sm := by
  simp [subnetsOf, h, hs]

theorem assignSubnet_mem {vpcs out : GoMap VPC} {n s : String} {sub : Subnet}
    (h : assignSubnet vpcs n s sub = .ok out) (k : String) : k ∈ out ↔ k ∈ vpcs := by
  obtain ⟨vpc, sm, h1, -, rfl⟩ := (assignSubnet_ok_iff _ _ _ _ _).mp h
  rw [Finmap.mem_insert]
  constructor
  · rintro (rfl | hk)
    · exact Finmap.mem_of_lookup_eq_some h1
    · exact hk
  · exact Or.inr

theorem assignSubnet_subnetsOf {vpcs out : GoMap VPC} {n s : String} {sub : Subnet}
    (h : assignSubnet vpcs n s sub = .ok out) (k : String) :
    subnetsOf out k = if k = n then (subnetsOf vpcs n).insert s sub else subnetsOf vpcs k := by
  obtain ⟨vpc, sm, h1, h2, rfl⟩ := (assignSubnet_ok_iff _ _ _ _ _).mp h
  rw [subnetsOf_insert, subnetsOf_of_lookup h1 h2]
  rfl

theorem assignSubnet_initialised {vpcs out : GoMap VPC} {n s : String} {sub : Subnet}
    (h : assignSubnet vpcs n s sub = .ok out) (hi : Initialised vpcs) : Initialised out := by
  obtain ⟨vpc, sm, h1, h2, rfl⟩ := (assignSubnet_ok_iff _ _ _ _ _).mp h
  intro k v hk
  rw [lookup_insert_eq] at hk
  by_cases hkn : k = n
  · simp [hkn] at hk
    rw [← hk]
    simp
  · simp [hkn] at hk
    exact hi k v hk

theorem assignSubnet_ok_of_mem {vpcs : GoMap VPC} {n : String} (s : String) (sub : Subnet)
    (hi : Initialised vpcs) (hn : n ∈ vpcs) : ∃ out, assignSubnet vpcs n s sub = .ok out := by
  obtain ⟨vpc, hv⟩ := Finmap.mem_iff.mp hn
  rcases assignSubnet_cases vpcs n s sub with ⟨-, hnil⟩ | ⟨_, _, -, -, h3⟩
  · exact absurd (hnil vpc hv) (hi n vpc hv)
  · exact ⟨_, h3⟩

theorem assignSubnet_error_of_not_mem {vpcs : GoMap VPC} {n : String} (s : String)
    (sub : Subnet) (hn : n ∉ vpcs) : assignSubnet vpcs n s sub = .error .nilMapWrite :=
  assignSubnet_of_missing s sub (Finmap.lookup_eq_none.mpr hn)

theorem assignSubnet_attrs {vpcs out : GoMap VPC} {n s : String} {sub : Subnet}
    (h : assignSubnet vpcs n s sub = .ok out) (k : String) :
    (out.lookup k).map VPC.attrs = (vpcs.lookup k).map VPC.attrs := by
  obtain ⟨vpc, sm, h1, h2, rfl⟩ := (assignSubnet_ok_iff _ _ _ _ _).mp h
  rw [lookup_insert_eq]
  by_cases hkn : k = n
  · subst hkn
    simp [h1, VPC.attrs]
  · simp [hkn]

/-- Two stores under different subnet ids, or in different networks, commute. -/
theorem assignSubnet_comm (vpcs : GoMap VPC) (n1 s1 n2 s2 : String) (a b : Subnet)
    (hne : s1 ≠ s2) :
    (assignSubnet vpcs n1 s1 a >>= fun g => assignSubnet g n2 s2 b)
      = (assignSubnet vpcs n2 s2 b >>= fun g => assignSubnet g n1 s1 a) := by
  by_cases hn : n1 = n2
  · subst hn
    rcases assignSubnet_cases vpcs n1 s1 a with ⟨h1, hnil⟩ | ⟨vpc, sm, h1, h2, h3⟩
    · rcases assignSubnet_cases vpcs n1 s2 b with ⟨h1', -⟩ | ⟨vpc, sm, h1', h2', -⟩
      · rw [h1, h1']; rfl
      · exact absurd (hnil vpc h1') (by simp [h2'])
    · rw [h3, assignSubnet_of_lookup s2 b h1 h2, ok_bind, ok_bind,
        assignSubnet_of_lookup s2 b (Finmap.lookup_insert _) rfl,
        assignSubnet_of_lookup s1 a (Finmap.lookup_insert _) rfl]
      simp only [Finmap.insert_insert]
      rw [Finmap.insert_insert_of_ne _ hne]
  · rcases assignSubnet_cases vpcs n1 s1 a with ⟨h1, hnil1⟩ | ⟨vpc1, sm1, h1, h2, h3⟩
    · rcases assignSubnet_cases vpcs n2 s2 b with ⟨h1', -⟩ | ⟨vpc2, sm2, h1', h2', h3'⟩
      · rw [h1, h1']; rfl
      · rw [h1, h3', error_bind, ok_bind]
        cases hl : vpcs.lookup n1 with
        | none =>
          rw [assignSubnet_of_missing]
          rw [Finmap.lookup_insert_of_ne _ hn]; exact hl
        | some v =>
          rw [assignSubnet_of_nil s1 a _ (hnil1 v hl)]
          rw [Finmap.lookup_insert_of_ne _ hn]; exact hl
    · rcases assignSubnet_cases vpcs n2 s2 b with ⟨h1', hnil2⟩ | ⟨vpc2, sm2, h1', h2', h3'⟩
      · rw [h3, h1', error_bind, ok_bind]
        cases hl : vpcs.lookup n2 with
        | none =>
          rw [assignSubnet_of_missing]
          rw [Finmap.lookup_insert_of_ne _ (Ne.symm hn)]; exact hl
        | some v =>
          rw [assignSubnet_of_nil s2 b _ (hnil2 v hl)]
          rw [Finmap.lookup_insert_of_ne _ (Ne.symm hn)]; exact hl
      · rw [h3, h3', ok_bind, ok_bind,
          assignSubnet_of_lookup s2 b
            (by rw [Finmap.lookup_insert_of_ne _ (Ne.symm hn)]; exact h1') h2',
          assignSubnet_of_lookup s1 a
            (by rw [Finmap.lookup_insert_of_ne _ hn]; exact h1) h2]
        rw [Finmap.insert_insert_of_ne _ hn]

/-! ## One iteration of `mapSubnets` -/

theorem mapSubnetsStep_of_operands (vpcs : GoMap VPC) {v : Option ec2.Subnet} {n s : String}
    {sub : Subnet} (h : subnetOperands v = .ok (n, s, sub)) :
    mapSubnetsStep vpcs v = assignSubnet vpcs n s sub := by
  simp [mapSubnetsStep, h]

theorem mapSubnetsStep_of_error (vpcs : GoMap VPC) {v : Option ec2.Subnet} {e : Fault}
    (h : subnetOperands v = .error e) : mapSubnetsStep vpcs v = .error .nilDeref := by
  have he := subnetOperands_error h
  subst he
  simp [mapSubnetsStep, h]

theorem mapSubnetsStep_ok {vpcs out : GoMap VPC} {v : Option ec2.Subnet}
    (h : mapSubnetsStep vpcs v = .ok out) :
    ∃ n s sub, subnetOperands v = .ok (n, s, sub) ∧ assignSubnet vpcs n s sub = .ok out := by
  rcases ho : subnetOperands v with e | ⟨n, s, sub⟩
  · rw [mapSubnetsStep_of_error vpcs ho] at h; simp at h
  · rw [mapSubnetsStep_of_operands vpcs ho] at h
    exact ⟨n, s, sub, rfl, h⟩

theorem subnetOperands_ids {v : Option ec2.Subnet} {n s : String} {sub : Subnet}
    (h : subnetOperands v = .ok (n, s, sub)) :
    ∃ r, v = some r ∧ r.VpcId = some n ∧ r.SubnetId = some s := by
  obtain ⟨r, pub, n', s', cidr, az, azId, hv, -, h1, h2, -, -, -, ht⟩ :=
    (subnetOperands_ok_iff v _).mp h
  simp only [Prod.mk.injEq] at ht
  obtain ⟨rfl, rfl, -⟩ := ht
  exact ⟨r, hv, h1, h2⟩

theorem subnetOperands_of_allPresent {r : ec2.Subnet} (h : r.allPresent = true) :
    ∃ n s sub, subnetOperands (some r) = .ok (n, s, sub) ∧ r.VpcId = some n ∧
      r.SubnetId = some s := by
  simp only [ec2.Subnet.allPresent, Bool.and_eq_true, Option.isSome_iff_exists] at h
  obtain ⟨⟨⟨⟨⟨⟨⟨n, h1⟩, ⟨s, h2⟩⟩, ⟨cidr, h3⟩⟩, ⟨az, h4⟩⟩, ⟨azId, h5⟩⟩, ⟨c, h6⟩⟩, ⟨p, h7⟩⟩ := h
  refine ⟨n, s, _, (subnetOperands_ok_iff _ _).mpr
    ⟨r, p || c, n, s, cidr, az, azId, rfl, isPublic_of_some h7 h6, h1, h2, h3, h4, h5, rfl⟩,
    h1, h2⟩

theorem mapSubnets_nil (vpcs : GoMap VPC) : mapSubnets vpcs [] = .ok vpcs := rfl

theorem mapSubnets_cons (vpcs : GoMap VPC) (v : Option ec2.Subnet)
    (l : List (Option ec2.Subnet)) :
    mapSubnets vpcs (v :: l) = (mapSubnetsStep vpcs v >>= fun g => mapSubnets g l) := by
  simp [mapSubnets]

theorem mapSubnets_singleton (vpcs : GoMap VPC) (v : Option ec2.Subnet) :
    mapSubnets vpcs [v] = mapSubnetsStep vpcs v := by
  rw [mapSubnets_cons]
  cases mapSubnetsStep vpcs v <;> rfl

/-! ## Invariants of `mapSubnets` -/

theorem mapSubnetsStep_mem {vpcs out : GoMap VPC} {v : Option ec2.Subnet}
    (h : mapSubnetsStep vpcs v = .ok out) (k : String) : k ∈ out ↔ k ∈ vpcs := by
  obtain ⟨n, s, sub, -, ha⟩ := mapSubnetsStep_ok h
  exact assignSubnet_mem ha k

theorem mapSubnetsStep_initialised {vpcs out : GoMap VPC} {v : Option ec2.Subnet}
    (h : mapSubnetsStep vpcs v = .ok out) (hi : Initialised vpcs) : Initialised out := by
  obtain ⟨n, s, sub, -, ha⟩ := mapSubnetsStep_ok h
  exact assignSubnet_initialised ha hi

theorem mapSubnets_mem {vpcs out : GoMap VPC} {l : List (Option ec2.Subnet)}
    (h : mapSubnets vpcs l = .ok out) (k : String) : k ∈ out ↔ k ∈ vpcs :=
  foldlM_ok_induction (fun g => k ∈ g ↔ k ∈ vpcs) l
    (fun _ _ _ _ hg hs => (mapSubnetsStep_mem hs k).trans hg) vpcs out Iff.rfl h

theorem mapSubnets_initialised {vpcs out : GoMap VPC} {l : List (Option ec2.Subnet)}
    (h : mapSubnets vpcs l = .ok out) (hi : Initialised vpcs) : Initialised out :=
  foldlM_ok_induction Initialised l
    (fun _ _ _ _ hg hs => mapSubnetsStep_initialised hs hg) vpcs out hi h

theorem mapSubnets_attrs {vpcs out : GoMap VPC} {l : List (Option ec2.Subnet)}
    (h : mapSubnets vpcs l = .ok out) (k : String) :
    (out.lookup k).map VPC.attrs = (vpcs.lookup k).map VPC.attrs :=
  foldlM_ok_induction
    (fun g => (g.lookup k).map VPC.attrs = (vpcs.lookup k).map VPC.attrs) l
    (fun _ _ _ _ hg hs => by
      obtain ⟨n, s, sub, -, ha⟩ := mapSubnetsStep_ok hs
      exact (assignSubnet_attrs ha k).trans hg) vpcs out rfl h

theorem mapSubnets_ok {vpcs : GoMap VPC} {l : List (Option ec2.Subnet)}
    (hi : Initialised vpcs) (hl : WellReferenced vpcs l) :
    ∃ out, mapSubnets vpcs l = .ok out := by
  obtain ⟨out, h, -⟩ := foldlM_ok_of_forall
    (fun g => Initialised g ∧ ∀ k, k ∈ g ↔ k ∈ vpcs) l
    (fun g v hv hg => by
      obtain ⟨r, rfl, hall, href⟩ := hl v hv
      obtain ⟨n, s, sub, ho, hn, -⟩ := subnetOperands_of_allPresent hall
      obtain ⟨o, hok⟩ := assignSubnet_ok_of_mem s sub hg.1 ((hg.2 n).mpr (href n hn))
      rw [← mapSubnetsStep_of_operands g ho] at hok
      exact ⟨o, hok, mapSubnetsStep_initialised hok hg.1,
        fun k => (mapSubnetsStep_mem hok k).trans (hg.2 k)⟩)
    vpcs ⟨hi, fun _ => Iff.rfl⟩
  exact ⟨out, h⟩

theorem mapSubnets_subnet_mem {l : List (Option ec2.Subnet)} :
    ∀ {vpcs out : GoMap VPC}, mapSubnets vpcs l = .ok out → ∀ k s,
      (s ∈ subnetsOf out k ↔ s ∈ subnetsOf vpcs k ∨
        ∃ r, some r ∈ l ∧ r.VpcId = some k ∧ r.SubnetId = some s) := by
  induction l with
  | nil =>
    intro vpcs out h k s
    rw [mapSubnets_nil] at h
    cases h
    simp
  | cons v l ih =>
    intro vpcs out h k s
    rw [mapSubnets_cons] at h
    rcases hs : mapSubnetsStep vpcs v with e | g
    · rw [hs] at h; simp at h
    · rw [hs, ok_bind] at h
      obtain ⟨n, s0, sub, ho, ha⟩ := mapSubnetsStep_ok hs
      obtain ⟨r0, rfl, hn0, hs0⟩ := subnetOperands_ids ho
      rw [ih h k s, assignSubnet_subnetsOf ha k]
      constructor
      · rintro (h1 | ⟨r, hr, h2, h3⟩)
        · by_cases hk : k = n
          · rw [if_pos hk, Finmap.mem_insert] at h1
            rcases h1 with rfl | h1
            · exact Or.inr ⟨r0, List.mem_cons_self _ _, hk ▸ hn0, hs0⟩
            · exact Or.inl (hk ▸ h1)
          · rw [if_neg hk] at h1
            exact Or.inl h1
        · exact Or.inr ⟨r, List.mem_cons_of_mem _ hr, h2, h3⟩
      · rintro (h1 | ⟨r, hr, h2, h3⟩)
        · left
          by_cases hk : k = n
          · rw [if_pos hk, Finmap.mem_insert]
            exact Or.inr (hk ▸ h1)
          · rw [if_neg hk]; exact h1
        · rcases List.mem_cons.mp hr with hr | hr
          · cases hr
            left
            rw [hn0] at h2
            rw [hs0] at h3
            cases h2
            cases h3
            rw [if_pos rfl, Finmap.mem_insert]
            exact Or.inl rfl
          · exact Or.inr ⟨r, hr, h2, h3⟩
/-! ## Counting subnets -/

theorem subnetsOf_of_seeded {vpcs : GoMap VPC} (h : Seeded vpcs) (k : String) :
    subnetsOf vpcs k = ∅ := by
  unfold subnetsOf
  cases hl : vpcs.lookup k with
  | none => rfl
  | some v => simp [h k v hl]

theorem totalSubnets_of_seeded {vpcs : GoMap VPC} (h : Seeded vpcs) : totalSubnets vpcs = 0 := by
  unfold totalSubnets
  apply Finset.sum_eq_zero
  intro k _
  rw [subnetsOf_of_seeded h k]
  rfl

theorem Seeded.initialised {vpcs : GoMap VPC} (h : Seeded vpcs) : Initialised vpcs := by
  intro n vpc hl
  rw [h n vpc hl]
  simp

theorem assignSubnet_total {vpcs out : GoMap VPC} {n s : String} {sub : Subnet}
    (h : assignSubnet vpcs n s sub = .ok out) (hs : s ∉ subnetsOf vpcs n) :
    totalSubnets out = totalSubnets vpcs + 1 := by
  have hkeys : out.keys = vpcs.keys := by
    ext k
    simp only [Finmap.mem_keys]
    exact assignSubnet_mem h k
  have hn : n ∈ vpcs.keys := by
    obtain ⟨vpc, sm, h1, -, -⟩ := (assignSubnet_ok_iff _ _ _ _ _).mp h
    exact Finmap.mem_keys.mpr (Finmap.mem_of_lookup_eq_some h1)
  unfold totalSubnets
  rw [hkeys, ← Finset.add_sum_erase _ _ hn, ← Finset.add_sum_erase _ _ hn]
  have hrest : ∀ k ∈ vpcs.keys.erase n,
      (subnetsOf out k).keys.card = (subnetsOf vpcs k).keys.card := by
    intro k hk
    rw [assignSubnet_subnetsOf h k, if_neg (Finset.ne_of_mem_erase hk)]
  rw [Finset.sum_congr rfl hrest, assignSubnet_subnetsOf h n, if_pos rfl, keys_insert,
    Finset.card_insert_of_not_mem (fun hc => hs (Finmap.mem_keys.mp hc))]
  omega

theorem mapSubnets_total {l : List (Option ec2.Subnet)} :
    ∀ {vpcs out : GoMap VPC}, mapSubnets vpcs l = .ok out → (l.map subnetIdOf).Nodup →
      (∀ r s, some r ∈ l → r.SubnetId = some s → ∀ k, s ∉ subnetsOf vpcs k) →
      totalSubnets out = totalSubnets vpcs + l.length := by
  induction l with
  | nil =>
    intro vpcs out h _ _
    rw [mapSubnets_nil] at h
    cases h
    rfl
  | cons v l ih =>
    intro vpcs out h hnd hfresh
    rw [mapSubnets_cons] at h
    rcases hs : mapSubnetsStep vpcs v with e | g
    · rw [hs] at h; simp at h
    · rw [hs, ok_bind] at h
      obtain ⟨n, s0, sub, ho, ha⟩ := mapSubnetsStep_ok hs
      obtain ⟨r0, rfl, hn0, hs0⟩ := subnetOperands_ids ho
      rw [List.map_cons, List.nodup_cons] at hnd
      have hfresh' : ∀ r s, some r ∈ l → r.SubnetId = some s → ∀ k, s ∉ subnetsOf g k := by
        intro r s hr hrs k hmem
        rw [assignSubnet_subnetsOf ha k] at hmem
        have hold := hfresh r s (List.mem_cons_of_mem _ hr) hrs
        by_cases hk : k = n
        · rw [if_pos hk, Finmap.mem_insert] at hmem
          rcases hmem with rfl | hmem
          · apply hnd.1
            rw [List.mem_map]
            exact ⟨some r, hr, by simp [subnetIdOf, hrs, hs0]⟩
          · exact hold n hmem
        · rw [if_neg hk] at hmem
          exact hold k hmem
      rw [ih h hnd.2 hfresh',
        assignSubnet_total ha (hfresh r0 s0 (List.mem_cons_self _ _) hs0 n)]
      simp only [List.length_cons]
      omega
/-! ## Order of the subnet records -/

theorem mapSubnetsStep_error_nilDeref {vpcs : GoMap VPC} {v : Option ec2.Subnet} {e : Fault}
    (hi : Initialised vpcs) (href : ∀ r n, v = some r → r.VpcId = some n → n ∈ vpcs)
    (h : mapSubnetsStep vpcs v = .error e) : e = .nilDeref := by
  rcases ho : subnetOperands v with e1 | ⟨n, s, sub⟩
  · rw [mapSubnetsStep_of_error vpcs ho] at h
    exact (Except.error.inj h).symm
  · rw [mapSubnetsStep_of_operands vpcs ho] at h
    obtain ⟨r, hv, hn, -⟩ := subnetOperands_ids ho
    obtain ⟨out, hout⟩ := assignSubnet_ok_of_mem s sub hi (href r n hv hn)
    rw [hout] at h
    simp at h

theorem mapSubnetsStep_swap {vpcs : GoMap VPC} {x y : Option ec2.Subnet}
    (hi : Initialised vpcs)
    (hx : ∀ r n, x = some r → r.VpcId = some n → n ∈ vpcs)
    (hy : ∀ r n, y = some r → r.VpcId = some n → n ∈ vpcs)
    (hne : subnetIdOf x ≠ subnetIdOf y) :
    (mapSubnetsStep vpcs y >>= fun g => mapSubnetsStep g x)
      = (mapSubnetsStep vpcs x >>= fun g => mapSubnetsStep g y) := by
  rcases hox : subnetOperands x with e1 | ⟨n1, s1, a⟩
  · have hxe : ∀ g, mapSubnetsStep g x = .error .nilDeref :=
      fun g => mapSubnetsStep_of_error g hox
    rw [hxe vpcs, error_bind]
    rcases hsy : mapSubnetsStep vpcs y with e2 | g
    · rw [error_bind, mapSubnetsStep_error_nilDeref hi hy hsy]
    · rw [ok_bind, hxe g]
  · rcases hoy : subnetOperands y with e2 | ⟨n2, s2, b⟩
    · have hye : ∀ g, mapSubnetsStep g y = .error .nilDeref :=
        fun g => mapSubnetsStep_of_error g hoy
      rw [hye vpcs, error_bind]
      rcases hsx : mapSubnetsStep vpcs x with e1 | g
      · rw [error_bind, mapSubnetsStep_error_nilDeref hi hx hsx]
      · rw [ok_bind, hye g]
    · obtain ⟨r1, rfl, -, hs1⟩ := subnetOperands_ids hox
      obtain ⟨r2, rfl, -, hs2⟩ := subnetOperands_ids hoy
      have hs : s1 ≠ s2 := by
        intro hc
        apply hne
        simp [subnetIdOf, hs1, hs2, hc]
      have e1 : ∀ g, mapSubnetsStep g (some r1) = assignSubnet g n1 s1 a :=
        fun g => mapSubnetsStep_of_operands g hox
      have e2 : ∀ g, mapSubnetsStep g (some r2) = assignSubnet g n2 s2 b :=
        fun g => mapSubnetsStep_of_operands g hoy
      simp only [e1, e2]
      exact (assignSubnet_comm vpcs n1 s1 n2 s2 a b hs).symm

theorem mapSubnets_perm {l1 l2 : List (Option ec2.Subnet)} (hperm : l1.Perm l2) :
    ∀ vpcs : GoMap VPC, Initialised vpcs → (l1.map subnetIdOf).Nodup →
      (∀ r n, some r ∈ l1 → r.VpcId = some n → n ∈ vpcs) →
      mapSubnets vpcs l1 = mapSubnets vpcs l2 := by
  induction hperm with
  | nil => intro vpcs _ _ _; rfl
  | cons x _ ih =>
    intro vpcs hi hnd href
    rw [mapSubnets_cons, mapSubnets_cons]
    rcases hs : mapSubnetsStep vpcs x with e | g
    · rfl
    · rw [ok_bind, ok_bind]
      rw [List.map_cons, List.nodup_cons] at hnd
      exact ih g (mapSubnetsStep_initialised hs hi) hnd.2
        (fun r n hr hn => (mapSubnetsStep_mem hs n).mpr
          (href r n (List.mem_cons_of_mem _ hr) hn))
  | swap x y l =>
    intro vpcs hi hnd href
    simp only [mapSubnets_cons, ← bind_assoc]
    have hne : subnetIdOf x ≠ subnetIdOf y := by
      simp only [List.map_cons, List.nodup_cons, List.mem_cons, not_or] at hnd
      exact fun hc => hnd.1.1 hc.symm
    rw [mapSubnetsStep_swap hi
      (fun r n hr hn => href r n (by simp [hr]) hn)
      (fun r n hr hn => href r n (by simp [hr]) hn) hne]
  | trans h12 _ ih1 ih2 =>
    intro vpcs hi hnd href
    rw [ih1 vpcs hi hnd href]
    exact ih2 vpcs hi ((h12.map subnetIdOf).nodup_iff.mp hnd)
      (fun r n hr hn => href r n (h12.mem_iff.mpr hr) hn)
/-! ## Missing networks -/

theorem mapSubnets_fault_iff {l : List (Option ec2.Subnet)} :
    ∀ {vpcs : GoMap VPC}, Initialised vpcs →
      (∀ v ∈ l, ∃ r, v = some r ∧ r.allPresent = true) →
      ((mapSubnets vpcs l = .error .nilMapWrite ↔
          ∃ r n, some r ∈ l ∧ r.VpcId = some n ∧ n ∉ vpcs) ∧
        ((∃ out, mapSubnets vpcs l = .ok out) ↔
          ¬ ∃ r n, some r ∈ l ∧ r.VpcId = some n ∧ n ∉ vpcs)) := by
  induction l with
  | nil =>
    intro vpcs _ _
    simp [mapSubnets_nil]
  | cons v l ih =>
    intro vpcs hi hall
    obtain ⟨r0, rfl, hr0⟩ := hall _ (List.mem_cons_self _ _)
    obtain ⟨n0, s0, sub, ho, hn0, -⟩ := subnetOperands_of_allPresent hr0
    rw [mapSubnets_cons, mapSubnetsStep_of_operands vpcs ho]
    by_cases hmem : n0 ∈ vpcs
    · obtain ⟨g, hg⟩ := assignSubnet_ok_of_mem s0 sub hi hmem
      rw [hg, ok_bind]
      obtain ⟨ih1, ih2⟩ := ih (assignSubnet_initialised hg hi)
        (fun v hv => hall v (List.mem_cons_of_mem _ hv))
      have key : (∃ r n, some r ∈ some r0 :: l ∧ r.VpcId = some n ∧ n ∉ vpcs) ↔
          ∃ r n, some r ∈ l ∧ r.VpcId = some n ∧ n ∉ g := by
        constructor
        · rintro ⟨r, n, hr, hn, hnot⟩
          rcases List.mem_cons.mp hr with hr | hr
          · cases hr
            rw [hn0] at hn
            cases hn
            exact absurd hmem hnot
          · exact ⟨r, n, hr, hn, fun hc => hnot ((assignSubnet_mem hg n).mp hc)⟩
        · rintro ⟨r, n, hr, hn, hnot⟩
          exact ⟨r, n, List.mem_cons_of_mem _ hr, hn,
            fun hc => hnot ((assignSubnet_mem hg n).mpr hc)⟩
      rw [key]
      exact ⟨ih1, ih2⟩
    · rw [assignSubnet_error_of_not_mem s0 sub hmem, error_bind]
      have hex : ∃ r n, some r ∈ some r0 :: l ∧ r.VpcId = some n ∧ n ∉ vpcs :=
        ⟨r0, n0, List.mem_cons_self _ _, hn0, hmem⟩
      constructor
      · exact ⟨fun _ => hex, fun _ => rfl⟩
      · constructor
        · rintro ⟨out, hout⟩
          simp at hout
        · intro hc
          exact absurd hex hc
/-! ## Seeding -/

theorem seeded_empty : Seeded (∅ : GoMap VPC) := by
  intro n vpc h
  simp at h

theorem seeded_insert {vpcs : GoMap VPC} (h : Seeded vpcs) (k : String) (v : VPC)
    (hv : v.Subnets = some ∅) : Seeded (vpcs.insert k v) := by
  intro n vpc hl
  rw [lookup_insert_eq] at hl
  by_cases hk : n = k
  · rw [if_pos hk] at hl
    cases hl
    exact hv
  · rw [if_neg hk] at hl
    exact h n vpc hl

theorem getVpcsStep_seeded {vpcs out : GoMap VPC} {v : Option ec2.Vpc}
    (h : getVpcsStep vpcs v = .ok out) (hs : Seeded vpcs) : Seeded out := by
  rcases v with _ | ⟨_ | n, _ | d, _ | c⟩ <;> simp [getVpcsStep] at h
  rw [← h]
  exact seeded_insert hs _ _ rfl

/-- The mapping `getVpcs` returns is seeded: every network has an empty `Subnets` map. -/
theorem getVpcs_seeded {vpclist : List (Option ec2.Vpc)} {err : Option GoError}
    {vpcs : GoMap VPC} {e : Option GoError} (h : getVpcs vpclist err = .ok (vpcs, e)) :
    Seeded vpcs := by
  unfold getVpcs at h
  cases err with
  | some e1 =>
    simp at h
    rw [← h.1]
    exact seeded_empty
  | none =>
    simp only at h
    rcases hf : vpclist.foldlM getVpcsStep (∅ : GoMap VPC) with e1 | g
    · rw [hf] at h; simp at h
    · rw [hf] at h
      simp at h
      rw [← h.1]
      exact foldlM_ok_induction Seeded vpclist
        (fun _ _ _ _ hg hs => getVpcsStep_seeded hs hg) ∅ g seeded_empty hf

theorem seededGraph_seeded : Seeded seededGraph :=
  seeded_insert seeded_empty _ _ rfl
/-! ## The operands of `mapInstances` -/

theorem appendInterface_ok_iff (acc out : List NetworkInterface)
    (ni : Option ec2.InstanceNetworkInterface) :
    appendInterface acc ni = .ok out ↔ ∃ x, Carries x ni ∧ out = acc ++ [x] := by
  rcases ni with _ | ⟨_ | a, _ | b, _ | c, _ | d⟩ <;>
    simp [appendInterface, Carries]
  constructor
  · rintro rfl
    exact ⟨⟨a, b, c, d, _⟩, ⟨rfl, rfl, rfl, rfl, rfl⟩, rfl⟩
  · rintro ⟨x, ⟨rfl, rfl, rfl, rfl, h5⟩, rfl⟩
    rcases x with ⟨_, _, _, _, raw⟩
    simp only at h5
    rw [h5]

theorem appendInterface_error {acc : List NetworkInterface}
    {ni : Option ec2.InstanceNetworkInterface} {e : Fault}
    (h : appendInterface acc ni = .error e) : e = .nilDeref := by
  rcases ni with _ | ⟨_ | a, _ | b, _ | c, _ | d⟩ <;>
    simp [appendInterface] at h <;> exact h.symm

theorem appendInterface_of_present (acc : List NetworkInterface)
    {ni : Option ec2.InstanceNetworkInterface} (h : interfacePresent ni = true) :
    ∃ out, appendInterface acc ni = .ok out := by
  rcases ni with _ | ⟨_ | a, _ | b, _ | c, _ | d⟩ <;>
    simp [interfacePresent, ec2.InstanceNetworkInterface.allPresent] at h
  exact ⟨_, rfl⟩

theorem interfaces_ok {l : List (Option ec2.InstanceNetworkInterface)} :
    ∀ {acc out : List NetworkInterface}, l.foldlM appendInterface acc = .ok out →
      ∃ xs, out = acc ++ xs ∧ List.Forall₂ Carries xs l := by
  induction l with
  | nil =>
    intro acc out h
    simp at h
    exact ⟨[], by simp [h], List.Forall₂.nil⟩
  | cons ni l ih =>
    intro acc out h
    rw [List.foldlM_cons] at h
    rcases ha : appendInterface acc ni with e | acc1
    · rw [ha] at h; simp at h
    · rw [ha, ok_bind] at h
      obtain ⟨x, hx, rfl⟩ := (appendInterface_ok_iff _ _ _).mp ha
      obtain ⟨xs, rfl, hxs⟩ := ih h
      exact ⟨x :: xs, by simp, List.Forall₂.cons hx hxs⟩

theorem interfaces_error {l : List (Option ec2.InstanceNetworkInterface)} :
    ∀ {acc : List NetworkInterface} {e : Fault},
      l.foldlM appendInterface acc = .error e → e = .nilDeref := by
  induction l with
  | nil => intro acc e h; simp at h
  | cons ni l ih =>
    intro acc e h
    rw [List.foldlM_cons] at h
    rcases ha : appendInterface acc ni with e1 | acc1
    · rw [ha] at h
      simp at h
      rw [← h]
      exact appendInterface_error ha
    · rw [ha, ok_bind] at h
      exact ih h

theorem interfaces_of_present {l : List (Option ec2.InstanceNetworkInterface)}
    (h : l.all interfacePresent = true) :
    ∀ acc : List NetworkInterface, ∃ out, l.foldlM appendInterface acc = .ok out := by
  induction l with
  | nil => intro acc; exact ⟨acc, rfl⟩
  | cons ni l ih =>
    intro acc
    simp only [List.all_cons, Bool.and_eq_true] at h
    obtain ⟨acc1, h1⟩ := appendInterface_of_present acc h.1
    rw [List.foldlM_cons, h1]
    exact ih h.2 acc1

theorem instanceOperands_ok_iff (inst : Option ec2.Instance)
    (t : String × String × String × EC2) :
    instanceOperands inst = .ok t ↔
      ∃ r ifs n s i ty st state pub priv, inst = some r ∧
        r.NetworkInterfaces.foldlM appendInterface [] = .ok ifs ∧ r.VpcId = some n ∧
        r.SubnetId = some s ∧ r.InstanceId = some i ∧ r.InstanceType = some ty ∧
        r.State = some st ∧ st.Name = some state ∧ r.PublicIpAddress = some pub ∧
        r.PrivateIpAddress = some priv ∧
        t = (n, s, i, { Id := i, Type_ := ty, SubnetId := s, VpcId := n, State := state,
                        PublicIP := pub, PrivateIP := priv, Interfaces := ifs,
                        RawEc2 := inst }) := by
  constructor
  · intro h
    unfold instanceOperands at h
    rcases inst with _ | r
    · simp at h
    rcases h0 : r.NetworkInterfaces.foldlM appendInterface [] with e | ifs
    · simp [h0] at h
    rcases h1 : r.VpcId with _ | n
    · simp [h0, h1] at h
    rcases h2 : r.SubnetId with _ | s
    · simp [h0, h1, h2] at h
    rcases h3 : r.InstanceId with _ | i
    · simp [h0, h1, h2, h3] at h
    rcases h4 : r.InstanceType with _ | ty
    · simp [h0, h1, h2, h3, h4] at h
    rcases h5 : r.State with _ | st
    · simp [h0, h1, h2, h3, h4, h5] at h
    rcases h6 : st.Name with _ | state
    · simp [h0, h1, h2, h3, h4, h5, h6] at h
    rcases h7 : r.PublicIpAddress with _ | pub
    · simp [h0, h1, h2, h3, h4, h5, h6, h7] at h
    rcases h8 : r.PrivateIpAddress with _ | priv
    · simp [h0, h1, h2, h3, h4, h5, h6, h7, h8] at h
    · simp only [h0, h1, h2, h3, h4, h5, h6, h7, h8, deref_some, ok_bind, pure_eq_ok] at h
      exact ⟨r, ifs, n, s, i, ty, st, state, pub, priv, rfl, h0, h1, h2, h3, h4, h5,
        h6, h7, h8, (Except.ok.inj h).symm⟩
  · rintro ⟨r, ifs, n, s, i, ty, st, state, pub, priv, rfl, h0, h1, h2, h3, h4, h5, h6, h7,
      h8, rfl⟩
    simp only [instanceOperands, h0, h1, h2, h3, h4, h5, h6, h7, h8, deref_some, ok_bind,
      pure_eq_ok]

theorem instanceOperands_error {inst : Option ec2.Instance} {e : Fault}
    (h : instanceOperands inst = .error e) : e = .nilDeref := by
  unfold instanceOperands at h
  rcases inst with _ | r
  · simp at h; exact h.symm
  rcases h0 : r.NetworkInterfaces.foldlM appendInterface [] with e1 | ifs
  · simp [h0] at h
    rw [← h]; exact interfaces_error h0
  rcases h1 : r.VpcId with _ | n
  · simp [h0, h1] at h; exact h.symm
  rcases h2 : r.SubnetId with _ | s
  · simp [h0, h1, h2] at h; exact h.symm
  rcases h3 : r.InstanceId with _ | i
  · simp [h0, h1, h2, h3] at h; exact h.symm
  rcases h4 : r.InstanceType with _ | ty
  · simp [h0, h1, h2, h3, h4] at h; exact h.symm
  rcases h5 : r.State with _ | st
  · simp [h0, h1, h2, h3, h4, h5] at h; exact h.symm
  rcases h6 : st.Name with _ | state
  · simp [h0, h1, h2, h3, h4, h5, h6] at h; exact h.symm
  rcases h7 : r.PublicIpAddress with _ | pub
  · simp [h0, h1, h2, h3, h4, h5, h6, h7] at h; exact h.symm
  rcases h8 : r.PrivateIpAddress with _ | priv
  · simp [h0, h1, h2, h3, h4, h5, h6, h7, h8] at h; exact h.symm
  · simp [h0, h1, h2, h3, h4, h5, h6, h7, h8] at h
/-! ## The store of `mapInstances` -/

theorem assignEC2_of_lookup {vpcs : GoMap VPC} {n s : String} {vpc : VPC}
    {sm : GoMap Subnet} {sn : Subnet} {em : GoMap EC2} (i : String) (e : EC2)
    (h1 : vpcs.lookup n = some vpc) (h2 : vpc.Subnets = some sm)
    (h3 : sm.lookup s = some sn) (h4 : sn.EC2s = some em) :
    assignEC2 vpcs n s i e
      = .ok (vpcs.insert n { vpc with
          Subnets := some (sm.insert s { sn with EC2s := some (em.insert i e) }) }) := by
  simp [assignEC2, indexVPC, indexSubnet, h1, h2, h3, h4]

theorem subnetAt_of_lookup {vpcs : GoMap VPC} {n : String} {vpc : VPC} {sm : GoMap Subnet}
    (h1 : vpcs.lookup n = some vpc) (h2 : vpc.Subnets = some sm) (s : String) :
    subnetAt vpcs n s = sm.lookup s := by
  rw [subnetAt, subnetsOf_of_lookup h1 h2]

theorem assignEC2_cases (vpcs : GoMap VPC) (n s i : String) (e : EC2) :
    (assignEC2 vpcs n s i e = .error .nilMapWrite ∧
      ∀ sn, subnetAt vpcs n s = some sn → sn.EC2s = none) ∨
    ∃ vpc sm sn em, vpcs.lookup n = some vpc ∧ vpc.Subnets = some sm ∧
      sm.lookup s = some sn ∧ sn.EC2s = some em ∧
      assignEC2 vpcs n s i e
        = .ok (vpcs.insert n { vpc with
            Subnets := some (sm.insert s { sn with EC2s := some (em.insert i e) }) }) := by
  cases h1 : vpcs.lookup n with
  | none =>
    left
    constructor
    · simp [assignEC2, indexVPC, indexSubnet, h1, VPC.zero, Subnet.zero]
    · intro sn hsn
      simp [subnetAt, subnetsOf, h1] at hsn
  | some vpc =>
    cases h2 : vpc.Subnets with
    | none =>
      left
      constructor
      · simp [assignEC2, indexVPC, indexSubnet, h1, h2, Subnet.zero]
      · intro sn hsn
        simp [subnetAt, subnetsOf, h1, h2] at hsn
    | some sm =>
      cases h3 : sm.lookup s with
      | none =>
        left
        constructor
        · simp [assignEC2, indexVPC, indexSubnet, h1, h2, h3, Subnet.zero]
        · intro sn hsn
          rw [subnetAt_of_lookup h1 h2, h3] at hsn
          simp at hsn
      | some sn =>
        cases h4 : sn.EC2s with
        | none =>
          left
          constructor
          · simp [assignEC2, indexVPC, indexSubnet, h1, h2, h3, h4]
          · intro sn1 hsn
            rw [subnetAt_of_lookup h1 h2, h3] at hsn
            cases hsn
            exact h4
        | some em =>
          exact Or.inr ⟨vpc, sm, sn, em, rfl, h2, h3, h4, assignEC2_of_lookup i e h1 h2 h3 h4⟩

theorem assignEC2_ok_iff (vpcs out : GoMap VPC) (n s i : String) (e : EC2) :
    assignEC2 vpcs n s i e = .ok out ↔
      ∃ vpc sm sn em, vpcs.lookup n = some vpc ∧ vpc.Subnets = some sm ∧
        sm.lookup s = some sn ∧ sn.EC2s = some em ∧
        out = vpcs.insert n { vpc with
          Subnets := some (sm.insert s { sn with EC2s := some (em.insert i e) }) } := by
  constructor
  · intro h
    rcases assignEC2_cases vpcs n s i e with ⟨h1, -⟩ | ⟨vpc, sm, sn, em, h1, h2, h3, h4, h5⟩
    · rw [h1] at h; simp at h
    · rw [h5] at h
      exact ⟨vpc, sm, sn, em, h1, h2, h3, h4, (Except.ok.inj h).symm⟩
  · rintro ⟨vpc, sm, sn, em, h1, h2, h3, h4, rfl⟩
    exact assignEC2_of_lookup i e h1 h2 h3 h4

theorem assignEC2_error {vpcs : GoMap VPC} {n s i : String} {e : EC2} {f : Fault}
    (h : assignEC2 vpcs n s i e = .error f) : f = .nilMapWrite := by
  rcases assignEC2_cases vpcs n s i e with ⟨h1, -⟩ | ⟨_, _, _, _, -, -, -, -, h5⟩
  · rw [h1] at h; exact (Except.error.inj h).symm
  · rw [h5] at h; simp at h

theorem assignEC2_error_of_absent {vpcs : GoMap VPC} {n s : String} (i : String) (e : EC2)
    (h : s ∉ subnetsOf vpcs n) : assignEC2 vpcs n s i e = .error .nilMapWrite := by
  rcases assignEC2_cases vpcs n s i e with ⟨h1, -⟩ | ⟨vpc, sm, sn, em, h1, h2, h3, -, -⟩
  · exact h1
  · exfalso
    apply h
    rw [subnetsOf_of_lookup h1 h2]
    exact Finmap.mem_of_lookup_eq_some h3

theorem assignEC2_ok_of_subnet {vpcs : GoMap VPC} {n s : String} {sn : Subnet}
    {em : GoMap EC2} (i : String) (e : EC2) (h : subnetAt vpcs n s = some sn)
    (he : sn.EC2s = some em) : ∃ out, assignEC2 vpcs n s i e = .ok out := by
  rcases assignEC2_cases vpcs n s i e with ⟨-, hnil⟩ | ⟨_, _, _, _, -, -, -, -, h5⟩
  · rw [hnil sn h] at he
    simp at he
  · exact ⟨_, h5⟩

theorem assignEC2_mem {vpcs out : GoMap VPC} {n s i : String} {e : EC2}
    (h : assignEC2 vpcs n s i e = .ok out) (k : String) : k ∈ out ↔ k ∈ vpcs := by
  obtain ⟨vpc, sm, sn, em, h1, -, -, -, rfl⟩ := (assignEC2_ok_iff _ _ _ _ _ _).mp h
  rw [Finmap.mem_insert]
  constructor
  · rintro (rfl | hk)
    · exact Finmap.mem_of_lookup_eq_some h1
    · exact hk
  · exact Or.inr

theorem assignEC2_attrs {vpcs out : GoMap VPC} {n s i : String} {e : EC2}
    (h : assignEC2 vpcs n s i e = .ok out) (k : String) :
    (out.lookup k).map VPC.attrs = (vpcs.lookup k).map VPC.attrs := by
  obtain ⟨vpc, sm, sn, em, h1, -, -, -, rfl⟩ := (assignEC2_ok_iff _ _ _ _ _ _).mp h
  rw [lookup_insert_eq]
  by_cases hkn : k = n
  · subst hkn
    simp [h1, VPC.attrs]
  · simp [hkn]

theorem assignEC2_subnetAt {vpcs out : GoMap VPC} {n s i : String} {e : EC2}
    (h : assignEC2 vpcs n s i e = .ok out) (k t : String) :
    ∃ sn em, subnetAt vpcs n s = some sn ∧ sn.EC2s = some em ∧
      subnetAt out k t = if k = n ∧ t = s
        then some { sn with EC2s := some (em.insert i e) } else subnetAt vpcs k t := by
  obtain ⟨vpc, sm, sn, em, h1, h2, h3, h4, rfl⟩ := (assignEC2_ok_iff _ _ _ _ _ _).mp h
  refine ⟨sn, em, by rw [subnetAt_of_lookup h1 h2, h3], h4, ?_⟩
  unfold subnetAt
  rw [subnetsOf_insert]
  by_cases hk : k = n
  · subst hk
    rw [if_pos rfl, subnetsOf_of_lookup h1 h2]
    simp only [Option.getD_some, lookup_insert_eq, true_and]
  · simp [hk]

theorem assignEC2_subnet_mem {vpcs out : GoMap VPC} {n s i : String} {e : EC2}
    (h : assignEC2 vpcs n s i e = .ok out) (k t : String) :
    t ∈ subnetsOf out k ↔ t ∈ subnetsOf vpcs k := by
  obtain ⟨sn, em, h1, -, h3⟩ := assignEC2_subnetAt h k t
  rw [Finmap.mem_iff, Finmap.mem_iff]
  change (∃ b, subnetAt out k t = some b) ↔ ∃ b, subnetAt vpcs k t = some b
  rw [h3]
  by_cases hc : k = n ∧ t = s
  · rw [if_pos hc]
    obtain ⟨rfl, rfl⟩ := hc
    exact ⟨fun _ => ⟨sn, h1⟩, fun _ => ⟨_, rfl⟩⟩
  · rw [if_neg hc]

theorem assignEC2_subnet_attrs {vpcs out : GoMap VPC} {n s i : String} {e : EC2}
    (h : assignEC2 vpcs n s i e = .ok out) (k t : String) :
    (subnetAt out k t).map Subnet.attrs = (subnetAt vpcs k t).map Subnet.attrs := by
  obtain ⟨sn, em, h1, -, h3⟩ := assignEC2_subnetAt h k t
  rw [h3]
  by_cases hc : k = n ∧ t = s
  · rw [if_pos hc]
    obtain ⟨rfl, rfl⟩ := hc
    rw [h1]
    rfl
  · rw [if_neg hc]

theorem assignEC2_ec2sOf {vpcs out : GoMap VPC} {n s i : String} {e : EC2}
    (h : assignEC2 vpcs n s i e = .ok out) (k t : String) :
    ec2sOf out k t
      = if k = n ∧ t = s then (ec2sOf vpcs n s).insert i e else ec2sOf vpcs k t := by
  obtain ⟨sn, em, h1, h2, h3⟩ := assignEC2_subnetAt h k t
  unfold ec2sOf
  rw [h3]
  by_cases hc : k = n ∧ t = s
  · rw [if_pos hc, if_pos hc, h1]
    simp [h2]
  · rw [if_neg hc, if_neg hc]
/-! ## One iteration of `mapInstances` -/

theorem mapInstancesStep_of_operands (vpcs : GoMap VPC) {inst : Option ec2.Instance}
    {n s i : String} {e : EC2} (h : instanceOperands inst = .ok (n, s, i, e)) :
    mapInstancesStep vpcs inst = assignEC2 vpcs n s i e := by
  simp [mapInstancesStep, h]

theorem mapInstancesStep_of_error (vpcs : GoMap VPC) {inst : Option ec2.Instance} {e : Fault}
    (h : instanceOperands inst = .error e) : mapInstancesStep vpcs inst = .error .nilDeref := by
  have he := instanceOperands_error h
  subst he
  simp [mapInstancesStep, h]

theorem mapInstancesStep_ok {vpcs out : GoMap VPC} {inst : Option ec2.Instance}
    (h : mapInstancesStep vpcs inst = .ok out) :
    ∃ n s i e, instanceOperands inst = .ok (n, s, i, e) ∧ assignEC2 vpcs n s i e = .ok out := by
  rcases ho : instanceOperands inst with f | ⟨n, s, i, e⟩
  · rw [mapInstancesStep_of_error vpcs ho] at h; simp at h
  · rw [mapInstancesStep_of_operands vpcs ho] at h
    exact ⟨n, s, i, e, rfl, h⟩

theorem instanceOperands_ids {inst : Option ec2.Instance} {n s i : String} {e : EC2}
    (h : instanceOperands inst = .ok (n, s, i, e)) :
    ∃ r, inst = some r ∧ r.VpcId = some n ∧ r.SubnetId = some s ∧ r.InstanceId = some i := by
  obtain ⟨r, ifs, n', s', i', ty, st, state, pub, priv, hv, -, h1, h2, h3, -, -, -, -, -, ht⟩ :=
    (instanceOperands_ok_iff inst _).mp h
  simp only [Prod.mk.injEq] at ht
  obtain ⟨rfl, rfl, rfl, -⟩ := ht
  exact ⟨r, hv, h1, h2, h3⟩

theorem instanceOperands_of_allPresent {r : ec2.Instance} (h : r.allPresent = true) :
    ∃ n s i e, instanceOperands (some r) = .ok (n, s, i, e) := by
  simp only [ec2.Instance.allPresent, Bool.and_eq_true, Option.isSome_iff_exists] at h
  obtain ⟨⟨⟨⟨⟨⟨⟨⟨i, h1⟩, ⟨ty, h2⟩⟩, ⟨s, h3⟩⟩, ⟨n, h4⟩⟩, ⟨state, h5⟩⟩, ⟨pub, h6⟩⟩,
    ⟨priv, h7⟩⟩, h8⟩ := h
  obtain ⟨ifs, h0⟩ := interfaces_of_present h8 []
  rcases hst : r.State with _ | st
  · rw [hst] at h5; simp at h5
  · rw [hst] at h5
    exact ⟨n, s, i, _, (instanceOperands_ok_iff _ _).mpr
      ⟨r, ifs, n, s, i, ty, st, state, pub, priv, rfl, h0, h4, h3, h1, h2, hst, h5, h6, h7,
        rfl⟩⟩

theorem mapInstances_single (vpcs : GoMap VPC) (inst : Option ec2.Instance) :
    mapInstances vpcs [some { Instances := [inst] }] = mapInstancesStep vpcs inst := by
  simp only [mapInstances, mapReservation, List.foldlM_cons, List.foldlM_nil, deref_some,
    ok_bind]
  cases mapInstancesStep vpcs inst <;> rfl

/-! ## Invariants of `mapInstances` -/

theorem mapReservation_ok {vpcs out : GoMap VPC} {v : Option ec2.Reservation}
    (h : mapReservation vpcs v = .ok out) :
    ∃ res, v = some res ∧ res.Instances.foldlM mapInstancesStep vpcs = .ok out := by
  rcases v with _ | res
  · simp [mapReservation] at h
  · exact ⟨res, rfl, by simpa [mapReservation] using h⟩

theorem mapReservation_some (vpcs : GoMap VPC) (res : ec2.Reservation) :
    mapReservation vpcs (some res) = res.Instances.foldlM mapInstancesStep vpcs := by
  simp [mapReservation]

theorem mapInstances_induction (I : GoMap VPC → Prop)
    (hstep : ∀ g inst out, I g → mapInstancesStep g inst = .ok out → I out)
    {vpcs out : GoMap VPC} {rs : List (Option ec2.Reservation)}
    (hI : I vpcs) (h : mapInstances vpcs rs = .ok out) : I out :=
  foldlM_ok_induction I rs
    (fun g v o _ hg hs => by
      obtain ⟨res, -, hres⟩ := mapReservation_ok hs
      exact foldlM_ok_induction I res.Instances
        (fun g1 x o1 _ hg1 hs1 => hstep g1 x o1 hg1 hs1) g o hg hres)
    vpcs out hI h

theorem mapInstances_mem {vpcs out : GoMap VPC} {rs : List (Option ec2.Reservation)}
    (h : mapInstances vpcs rs = .ok out) (k : String) : k ∈ out ↔ k ∈ vpcs :=
  mapInstances_induction (fun g => k ∈ g ↔ k ∈ vpcs)
    (fun _ _ _ hg hs => by
      obtain ⟨n, s, i, e, -, ha⟩ := mapInstancesStep_ok hs
      exact (assignEC2_mem ha k).trans hg) Iff.rfl h

theorem mapInstances_attrs {vpcs out : GoMap VPC} {rs : List (Option ec2.Reservation)}
    (h : mapInstances vpcs rs = .ok out) (k : String) :
    (out.lookup k).map VPC.attrs = (vpcs.lookup k).map VPC.attrs :=
  mapInstances_induction (fun g => (g.lookup k).map VPC.attrs = (vpcs.lookup k).map VPC.attrs)
    (fun _ _ _ hg hs => by
      obtain ⟨n, s, i, e, -, ha⟩ := mapInstancesStep_ok hs
      exact (assignEC2_attrs ha k).trans hg) rfl h

theorem mapInstances_subnet_mem {vpcs out : GoMap VPC} {rs : List (Option ec2.Reservation)}
    (h : mapInstances vpcs rs = .ok out) (k t : String) :
    t ∈ subnetsOf out k ↔ t ∈ subnetsOf vpcs k :=
  mapInstances_induction (fun g => t ∈ subnetsOf g k ↔ t ∈ subnetsOf vpcs k)
    (fun _ _ _ hg hs => by
      obtain ⟨n, s, i, e, -, ha⟩ := mapInstancesStep_ok hs
      exact (assignEC2_subnet_mem ha k t).trans hg) Iff.rfl h

theorem mapInstances_subnet_attrs {vpcs out : GoMap VPC} {rs : List (Option ec2.Reservation)}
    (h : mapInstances vpcs rs = .ok out) (k t : String) :
    (subnetAt out k t).map Subnet.attrs = (subnetAt vpcs k t).map Subnet.attrs :=
  mapInstances_induction
    (fun g => (subnetAt g k t).map Subnet.attrs = (subnetAt vpcs k t).map Subnet.attrs)
    (fun _ _ _ hg hs => by
      obtain ⟨n, s, i, e, -, ha⟩ := mapInstancesStep_ok hs
      exact (assignEC2_subnet_attrs ha k t).trans hg) rfl h

/-! ## Missing subnets -/

theorem foldlM_error_kind {σ α : Type} {step : σ → α → Except Fault σ} (P : Fault → Prop)
    (l : List α) (hstep : ∀ g x e, x ∈ l → step g x = .error e → P e) :
    ∀ g e, l.foldlM step g = .error e → P e := by
  induction l with
  | nil => intro g e h; simp at h
  | cons x xs ih =>
    intro g e h
    rw [List.foldlM_cons] at h
    rcases hx : step g x with e1 | g1
    · rw [hx] at h
      simp at h
      exact h ▸ hstep g x e1 (List.mem_cons_self _ _) hx
    · rw [hx, ok_bind] at h
      exact ih (fun g2 y e2 hy => hstep g2 y e2 (List.mem_cons_of_mem _ hy)) g1 e h

theorem mapInstancesStep_orphan {vpcs : GoMap VPC} {inst : ec2.Instance}
    (h : Orphan vpcs inst) : ∃ e, mapInstancesStep vpcs (some inst) = .error e := by
  rcases ho : instanceOperands (some inst) with f | ⟨n, s, i, e⟩
  · exact ⟨_, mapInstancesStep_of_error vpcs ho⟩
  · obtain ⟨r, hr, hn, hs, -⟩ := instanceOperands_ids ho
    cases hr
    rw [mapInstancesStep_of_operands vpcs ho]
    exact ⟨_, assignEC2_error_of_absent i e (h n s hn hs)⟩

theorem mapInstancesStep_orphan_preserved {vpcs out : GoMap VPC} {x : Option ec2.Instance}
    {inst : ec2.Instance} (h : Orphan vpcs inst) (hs : mapInstancesStep vpcs x = .ok out) :
    Orphan out inst := by
  obtain ⟨n, s, i, e, -, ha⟩ := mapInstancesStep_ok hs
  intro n1 s1 hn1 hs1 hc
  exact h n1 s1 hn1 hs1 ((assignEC2_subnet_mem ha n1 s1).mp hc)

theorem mapInstances_orphan {vpcs : GoMap VPC} {rs : List (Option ec2.Reservation)}
    {res : ec2.Reservation} {inst : ec2.Instance} (hres : some res ∈ rs)
    (hinst : some inst ∈ res.Instances) (h : Orphan vpcs inst) :
    ∃ e, mapInstances vpcs rs = .error e :=
  foldlM_error_of_mem (fun g => Orphan g inst) rs (some res) hres
    (fun g v out hg hs => by
      obtain ⟨res1, -, hfold⟩ := mapReservation_ok hs
      exact foldlM_ok_induction (fun g1 => Orphan g1 inst) res1.Instances
        (fun g1 x o1 _ hg1 hs1 => mapInstancesStep_orphan_preserved hg1 hs1) g out hg hfold)
    (fun g hg => by
      rw [mapReservation_some]
      exact @foldlM_error_of_mem (GoMap VPC) (Option ec2.Instance) mapInstancesStep
        (fun g1 => Orphan g1 inst) res.Instances (some inst) hinst
        (fun g1 x o1 hg1 hs1 => mapInstancesStep_orphan_preserved hg1 hs1)
        (fun g1 hg1 => mapInstancesStep_orphan hg1) g hg)
    vpcs h

theorem mapInstances_error_kind {vpcs : GoMap VPC} {rs : List (Option ec2.Reservation)}
    {e : Fault} (hall : AllInstancesPresent rs) (h : mapInstances vpcs rs = .error e) :
    e = .nilMapWrite :=
  foldlM_error_kind (fun f => f = .nilMapWrite) rs
    (fun g v f hv hs => by
      obtain ⟨res, rfl, hres⟩ := hall v hv
      rw [mapReservation_some] at hs
      exact foldlM_error_kind (fun f => f = .nilMapWrite) res.Instances
        (fun g1 w f1 hw hs1 => by
          obtain ⟨inst, rfl, hp⟩ := hres w hw
          obtain ⟨n, s, i, x, ho⟩ := instanceOperands_of_allPresent hp
          rw [mapInstancesStep_of_operands g1 ho] at hs1
          exact assignEC2_error hs1) g f hs)
    vpcs e h
/-! ## Subnets built by `mapSubnets` hold no instances -/

theorem freshSubnets_of_seeded {vpcs : GoMap VPC} (h : Seeded vpcs) : FreshSubnets vpcs := by
  intro n s sn hsn
  rw [subnetAt, subnetsOf_of_seeded h n] at hsn
  simp at hsn

theorem subnetOperands_fresh {v : Option ec2.Subnet} {n s : String} {sub : Subnet}
    (h : subnetOperands v = .ok (n, s, sub)) : sub.EC2s = some ∅ := by
  obtain ⟨r, pub, n', s', cidr, az, azId, -, -, -, -, -, -, -, ht⟩ :=
    (subnetOperands_ok_iff v _).mp h
  simp only [Prod.mk.injEq] at ht
  obtain ⟨-, -, rfl⟩ := ht
  rfl

theorem mapSubnets_fresh {vpcs out : GoMap VPC} {l : List (Option ec2.Subnet)}
    (h : mapSubnets vpcs l = .ok out) (hf : FreshSubnets vpcs) : FreshSubnets out :=
  foldlM_ok_induction FreshSubnets l
    (fun g v o _ hg hs => by
      obtain ⟨n, s, sub, ho, ha⟩ := mapSubnetsStep_ok hs
      intro k t sn hsn
      rw [subnetAt, assignSubnet_subnetsOf ha k] at hsn
      by_cases hk : k = n
      · rw [if_pos hk, lookup_insert_eq] at hsn
        by_cases ht : t = s
        · rw [if_pos ht] at hsn
          cases hsn
          exact subnetOperands_fresh ho
        · rw [if_neg ht] at hsn
          exact hg n t sn hsn
      · rw [if_neg hk] at hsn
        exact hg k t sn hsn)
    vpcs out hf h

theorem ec2sOf_of_fresh {vpcs : GoMap VPC} (h : FreshSubnets vpcs) (n s : String) :
    ec2sOf vpcs n s = ∅ := by
  unfold ec2sOf
  cases hs : subnetAt vpcs n s with
  | none => rfl
  | some sn => simp [h n s sn hs]
/-! ## Public-reachability derivation -/

/-- C1: for every network mapping and every subnet record whose network id is a key of the
mapping with an initialised `Subnets` map, the `Subnet` that `mapSubnets` stores under that
network and subnet id has `Public` equal to the logical OR of the record's
`MapPublicIpOnLaunch` and `MapCustomerOwnedIpOnLaunch`; the store takes place whenever the
remaining fields of the record are present. -/
theorem mapSubnets_public_is_or (vpcs : GoMap VPC) (r : ec2.Subnet) (n s : String)
    (a b : Bool) (vpc : VPC) (sm : GoMap Subnet)
    (hn : r.VpcId = some n) (hs : r.SubnetId = some s)
    (ha : r.MapPublicIpOnLaunch = some a) (hb : r.MapCustomerOwnedIpOnLaunch = some b)
    (hv : vpcs.lookup n = some vpc) (hsm : vpc.Subnets = some sm) :
    (∀ out, mapSubnets vpcs [some r] = .ok out →
        ∃ sub, subnetAt out n s = some sub ∧ sub.Public = (a || b)) ∧
      (r.allPresent = true → ∃ out, mapSubnets vpcs [some r] = .ok out) := by
  constructor
  · intro out h
    rw [mapSubnets_singleton] at h
    obtain ⟨n1, s1, sub, ho, hassign⟩ := mapSubnetsStep_ok h
    obtain ⟨r1, pub, n2, s2, cidr, az, azId, hr, hp, h1, h2, -, -, -, ht⟩ :=
      (subnetOperands_ok_iff _ _).mp ho
    cases hr
    rw [hn] at h1
    rw [hs] at h2
    cases h1
    cases h2
    simp only [Prod.mk.injEq] at ht
    obtain ⟨rfl, rfl, rfl⟩ := ht
    rw [isPublic_of_some ha hb] at hp
    cases hp
    have hl : subnetAt out n1 s1 = some
        { Id := s1, CidrBlock := cidr, AvailabilityZone := az, AvailabilityZoneId := azId,
          Public := (a || b), RawSubnet := some r, EC2s := some ∅ } := by
      unfold subnetAt
      rw [assignSubnet_subnetsOf hassign, if_pos rfl, Finmap.lookup_insert]
    exact ⟨_, hl, rfl⟩
  · intro hall
    obtain ⟨n1, s1, sub, ho, h1, -⟩ := subnetOperands_of_allPresent hall
    rw [hn] at h1
    cases h1
    rw [mapSubnets_singleton, mapSubnetsStep_of_operands vpcs ho,
      assignSubnet_of_lookup s1 sub hv hsm]
    exact ⟨_, rfl⟩

/-- C1 on a subnet of `vpc-1` with
(`MapPublicIpOnLaunch`, `MapCustomerOwnedIpOnLaunch`) = (false, true): it is stored public. -/
theorem mapSubnets_public_is_or_witness :
    (∀ out, mapSubnets seededGraph [some secondSubnet] = .ok out →
        ∃ sub, subnetAt out "vpc-1" "subnet-2" = some sub ∧ sub.Public = (false || true)) ∧
      (secondSubnet.allPresent = true →
        ∃ out, mapSubnets seededGraph [some secondSubnet] = .ok out) :=
  mapSubnets_public_is_or seededGraph secondSubnet "vpc-1" "subnet-2" false true
    { Id := "vpc-1", IsDefault := false, CidrBlock := "10.0.0.0/16",
      RawVPC := some scenarioVpc, Subnets := some ∅ } ∅ rfl rfl rfl rfl (by decide) rfl

/-! ## Ownership of subnets -/

/-- C3, amended: for every freshly seeded network mapping and every subnet list with
pairwise distinct subnet ids whose records have all fields present and reference network
ids that are keys of the mapping, `mapSubnets` completes without fault; afterwards each
record's subnet id is a key of the `Subnets` map of exactly one network, the one the record
references, and the number of subnets in the graph is the length of the list. -/
theorem mapSubnets_ownership (vpcs : GoMap VPC) (l : List (Option ec2.Subnet))
    (hseed : Seeded vpcs) (hnd : (l.map subnetIdOf).Nodup) (hwr : WellReferenced vpcs l) :
    ∃ out, mapSubnets vpcs l = .ok out ∧
      (∀ r n s, some r ∈ l → r.VpcId = some n → r.SubnetId = some s →
        ∀ k, s ∈ subnetsOf out k ↔ k = n) ∧
      totalSubnets out = l.length := by
  obtain ⟨out, hout⟩ := mapSubnets_ok hseed.initialised hwr
  refine ⟨out, hout, ?_, ?_⟩
  · intro r n s hr hn hs k
    rw [mapSubnets_subnet_mem hout k s, subnetsOf_of_seeded hseed k]
    constructor
    · rintro (h | ⟨r1, hr1, hn1, hs1⟩)
      · exact absurd h (Finmap.not_mem_empty)
      · have heq : some r1 = some r :=
          List.inj_on_of_nodup_map hnd hr1 hr (by simp [subnetIdOf, hs, hs1])
        cases heq
        rw [hn] at hn1
        exact (Option.some.inj hn1).symm
    · rintro rfl
      exact Or.inr ⟨r, hr, hn, hs⟩
  · rw [mapSubnets_total hout hnd, totalSubnets_of_seeded hseed, Nat.zero_add]
    intro r s _ _ k
    rw [subnetsOf_of_seeded hseed k]
    exact Finmap.not_mem_empty

/-- C3, amended, on the scenario: `subnet-1` and `subnet-2` of `vpc-1`. -/
theorem mapSubnets_ownership_witness :
    ∃ out, mapSubnets seededGraph [some scenarioSubnet, some secondSubnet] = .ok out ∧
      (∀ r n s, some r ∈ [some scenarioSubnet, some secondSubnet] → r.VpcId = some n →
        r.SubnetId = some s → ∀ k, s ∈ subnetsOf out k ↔ k = n) ∧
      totalSubnets out = [some scenarioSubnet, some secondSubnet].length :=
  mapSubnets_ownership seededGraph [some scenarioSubnet, some secondSubnet]
    seededGraph_seeded (by decide)
    (by
      intro v hv
      simp only [List.mem_cons, List.mem_singleton, List.not_mem_nil, or_false] at hv
      rcases hv with rfl | rfl
      · exact ⟨scenarioSubnet, rfl, by decide, fun n hn => by
          cases hn; decide⟩
      · exact ⟨secondSubnet, rfl, by decide, fun n hn => by
          cases hn; decide⟩)

/-- C3 as stated fails: `vpc-1` is seeded, the list holds one record with a subnet id,
its network id `vpc-1` is a key of the mapping, and `mapSubnets` faults on the absent
`CidrBlock`. -/
theorem mapSubnets_ownership_counterexample :
    Seeded seededGraph ∧ ([some subnetNoCidr].map subnetIdOf).Nodup ∧
      (∀ v ∈ [some subnetNoCidr], ∃ r n, v = some r ∧ r.VpcId = some n ∧ n ∈ seededGraph) ∧
      mapSubnets seededGraph [some subnetNoCidr] = .error .nilDeref :=
  ⟨seededGraph_seeded, by decide,
    fun v hv => by
      simp only [List.mem_singleton] at hv
      subst hv
      exact ⟨subnetNoCidr, "vpc-1", rfl, rfl, by decide⟩,
    by decide⟩
/-! ## Order of the subnet records -/

/-- C8: `mapSubnets` is independent of record order. For every freshly seeded network
mapping and every two subnet lists that are permutations of each other, have pairwise
distinct subnet ids and reference only network ids present in the mapping, `mapSubnets` has
the same outcome on both; when the records have all fields present that outcome is one and
the same graph. -/
theorem mapSubnets_order_independent (vpcs : GoMap VPC) (l1 l2 : List (Option ec2.Subnet))
    (hseed : Seeded vpcs) (hperm : l1.Perm l2) (hnd : (l1.map subnetIdOf).Nodup)
    (href : ∀ r n, some r ∈ l1 → r.VpcId = some n → n ∈ vpcs) :
    mapSubnets vpcs l1 = mapSubnets vpcs l2 ∧
      ((∀ v ∈ l1, ∃ r, v = some r ∧ r.allPresent = true) →
        ∃ out, mapSubnets vpcs l1 = .ok out ∧ mapSubnets vpcs l2 = .ok out) := by
  have heq := mapSubnets_perm hperm vpcs hseed.initialised hnd href
  refine ⟨heq, fun hall => ?_⟩
  obtain ⟨out, hout⟩ := mapSubnets_ok hseed.initialised (l := l1) (fun v hv => by
    obtain ⟨r, rfl, hr⟩ := hall v hv
    exact ⟨r, rfl, hr, fun n hn => href r n hv hn⟩)
  exact ⟨out, hout, heq ▸ hout⟩

/-- C8 on the scenario: `subnet-1` and `subnet-2` of `vpc-1` in both orders. -/
theorem mapSubnets_order_independent_witness :
    mapSubnets seededGraph [some scenarioSubnet, some secondSubnet]
        = mapSubnets seededGraph [some secondSubnet, some scenarioSubnet] ∧
      ((∀ v ∈ [some scenarioSubnet, some secondSubnet], ∃ r, v = some r ∧ r.allPresent = true) →
        ∃ out, mapSubnets seededGraph [some scenarioSubnet, some secondSubnet] = .ok out ∧
          mapSubnets seededGraph [some secondSubnet, some scenarioSubnet] = .ok out) :=
  mapSubnets_order_independent seededGraph [some scenarioSubnet, some secondSubnet]
    [some secondSubnet, some scenarioSubnet] seededGraph_seeded (List.Perm.swap _ _ _)
    (by decide)
    (by
      intro r n hr hn
      simp only [List.mem_cons, List.mem_singleton, List.not_mem_nil, or_false,
        Option.some.injEq] at hr
      rcases hr with rfl | rfl <;> cases hn <;> decide)

/-! ## Missing parents -/

/-- C9: a missing parent is a fault, not a skip. For every mapping whose networks have
initialised `Subnets` maps and every subnet list whose records have all fields present,
`mapSubnets` fails with the nil-map write fault if and only if some record references a
network id that is not a key of the mapping, and completes otherwise. `mapInstances` faults
whenever a record of the reservation list references a network or subnet id absent from the
mapping, with the nil-map write fault when all records have all fields present. -/
theorem missing_parent_is_fault (vpcs : GoMap VPC) (l : List (Option ec2.Subnet))
    (hi : Initialised vpcs) (hall : ∀ v ∈ l, ∃ r, v = some r ∧ r.allPresent = true) :
    (mapSubnets vpcs l = .error .nilMapWrite ↔
        ∃ r n, some r ∈ l ∧ r.VpcId = some n ∧ n ∉ vpcs) ∧
      ((∃ out, mapSubnets vpcs l = .ok out) ↔
        ¬ ∃ r n, some r ∈ l ∧ r.VpcId = some n ∧ n ∉ vpcs) ∧
      (∀ (rs : List (Option ec2.Reservation)) (res : ec2.Reservation) (inst : ec2.Instance),
        some res ∈ rs → some inst ∈ res.Instances → Orphan vpcs inst →
        ∃ e, mapInstances vpcs rs = .error e ∧
          (AllInstancesPresent rs → e = .nilMapWrite)) := by
  obtain ⟨h1, h2⟩ := mapSubnets_fault_iff hi hall
  refine ⟨h1, h2, ?_⟩
  intro rs res inst hres hinst horph
  obtain ⟨e, he⟩ := mapInstances_orphan hres hinst horph
  exact ⟨e, he, fun hp => mapInstances_error_kind hp he⟩

/-- C9 on the scenario: the subnet record of `vpc-9` and the instance placed in `subnet-2`
make `mapSubnets` and `mapInstances` fault. -/
theorem missing_parent_is_fault_witness :
    mapSubnets seededGraph [some scenarioSubnet, some orphanSubnet] = .error .nilMapWrite ∧
      ∃ e, mapInstances seededGraph [some { Instances := [some strayInstance] }] = .error e ∧
        (AllInstancesPresent [some { Instances := [some strayInstance] }] →
          e = .nilMapWrite) :=
  have h := missing_parent_is_fault seededGraph [some scenarioSubnet, some orphanSubnet]
    seededGraph_seeded.initialised
    (by
      intro v hv
      simp only [List.mem_cons, List.mem_singleton, List.not_mem_nil, or_false] at hv
      rcases hv with rfl | rfl
      · exact ⟨scenarioSubnet, rfl, by decide⟩
      · exact ⟨orphanSubnet, rfl, by decide⟩)
  ⟨h.1.mpr ⟨orphanSubnet, "vpc-9", by simp, rfl, by decide⟩,
    h.2.2 [some { Instances := [some strayInstance] }] { Instances := [some strayInstance] }
      strayInstance (by simp) (by simp)
      (by
        intro n s hn hs
        cases hn
        cases hs
        decide)⟩

/-! ## What correlation leaves unchanged -/

/-- C10: correlation only populates `Subnets`. On every mapping and every subnet list and
reservation list on which they complete, `mapSubnets` and `mapInstances` leave the set of
network ids and each network's `Id`, `IsDefault`, `CidrBlock` (and raw record) unchanged;
`mapInstances` also leaves each network's set of subnet ids and every subnet's `Id`,
`CidrBlock`, `AvailabilityZone`, `AvailabilityZoneId`, `Public` (and raw record) unchanged. -/
theorem correlation_frame (vpcs g1 g2 : GoMap VPC) (subnets : List (Option ec2.Subnet))
    (reservations : List (Option ec2.Reservation))
    (h1 : mapSubnets vpcs subnets = .ok g1) (h2 : mapInstances vpcs reservations = .ok g2) :
    (g1.keys = vpcs.keys ∧
        ∀ k, (g1.lookup k).map VPC.attrs = (vpcs.lookup k).map VPC.attrs) ∧
      (g2.keys = vpcs.keys ∧
        (∀ k, (g2.lookup k).map VPC.attrs = (vpcs.lookup k).map VPC.attrs) ∧
        (∀ k, (subnetsOf g2 k).keys = (subnetsOf vpcs k).keys) ∧
        ∀ k s, (subnetAt g2 k s).map Subnet.attrs = (subnetAt vpcs k s).map Subnet.attrs) := by
  refine ⟨⟨?_, mapSubnets_attrs h1⟩, ?_, mapInstances_attrs h2, ?_,
    mapInstances_subnet_attrs h2⟩
  · ext k
    simp only [Finmap.mem_keys]
    exact mapSubnets_mem h1 k
  · ext k
    simp only [Finmap.mem_keys]
    exact mapInstances_mem h2 k
  · intro k
    ext t
    simp only [Finmap.mem_keys]
    exact mapInstances_subnet_mem h2 k t

/-- C10 on the scenario graph: one more subnet is mapped, one instance is mapped. -/
theorem correlation_frame_witness :
    ∃ g1 g2, mapSubnets scenarioGraph [some secondSubnet] = .ok g1 ∧
      mapInstances scenarioGraph [some { Instances := [some publicInstance] }] = .ok g2 ∧
      (g1.keys = scenarioGraph.keys ∧
        ∀ k, (g1.lookup k).map VPC.attrs = (scenarioGraph.lookup k).map VPC.attrs) ∧
      (g2.keys = scenarioGraph.keys ∧
        (∀ k, (g2.lookup k).map VPC.attrs = (scenarioGraph.lookup k).map VPC.attrs) ∧
        (∀ k, (subnetsOf g2 k).keys = (subnetsOf scenarioGraph k).keys) ∧
        ∀ k s, (subnetAt g2 k s).map Subnet.attrs
          = (subnetAt scenarioGraph k s).map Subnet.attrs) :=
  (exists_ok_of_isSome (x := mapSubnets scenarioGraph [some secondSubnet])
      (by decide)).elim fun g1 h1 =>
    (exists_ok_of_isSome
      (x := mapInstances scenarioGraph [some { Instances := [some publicInstance] }])
      (by decide)).elim fun g2 h2 =>
      ⟨g1, g2, h1, h2, correlation_frame scenarioGraph g1 g2 _ _ h1 h2⟩

/-! ## Instances -/

theorem mapInstancesStep_stored {vpcs out : GoMap VPC} {r : ec2.Instance} {n s i : String}
    (hn : r.VpcId = some n) (hs : r.SubnetId = some s) (hi : r.InstanceId = some i)
    (h : mapInstancesStep vpcs (some r) = .ok out) :
    ∃ e, instanceOperands (some r) = .ok (n, s, i, e) ∧ assignEC2 vpcs n s i e = .ok out ∧
      ec2At out n s i = some e := by
  obtain ⟨n1, s1, i1, e, ho, ha⟩ := mapInstancesStep_ok h
  obtain ⟨r1, hr, h1, h2, h3⟩ := instanceOperands_ids ho
  cases hr
  rw [hn] at h1
  rw [hs] at h2
  rw [hi] at h3
  cases h1
  cases h2
  cases h3
  refine ⟨e, ho, ha, ?_⟩
  unfold ec2At
  rw [assignEC2_ec2sOf ha, if_pos ⟨rfl, rfl⟩, Finmap.lookup_insert]

theorem instanceOperands_value {r : ec2.Instance} {n s i : String} {e : EC2}
    (h : instanceOperands (some r) = .ok (n, s, i, e)) :
    List.Forall₂ Carries e.Interfaces r.NetworkInterfaces ∧
      r.PublicIpAddress = some e.PublicIP ∧ r.PrivateIpAddress = some e.PrivateIP ∧
      e.Id = i ∧ e.SubnetId = s ∧ e.VpcId = n := by
  obtain ⟨r1, ifs, n1, s1, i1, ty, st, state, pub, priv, hr, h0, -, -, -, -, -, -, h7, h8,
    ht⟩ := (instanceOperands_ok_iff _ _).mp h
  cases hr
  simp only [Prod.mk.injEq] at ht
  obtain ⟨rfl, rfl, rfl, rfl⟩ := ht
  obtain ⟨xs, hxs, hcar⟩ := interfaces_ok h0
  rw [List.nil_append] at hxs
  subst hxs
  exact ⟨hcar, h7, h8, rfl, rfl, rfl⟩

/-- C2: for every instance record whose network and subnet are present in the mapping and
whose fields are all present, the `EC2` that `mapInstances` stores has an `Interfaces`
sequence of the length of the record's `NetworkInterfaces`, and its element at every index
carries the id, private address, MAC and DNS name of the record's interface at that index;
the store takes place whenever the subnet's `EC2s` map is initialised. -/
theorem mapInstances_interfaces_in_order (vpcs : GoMap VPC) (r : ec2.Instance)
    (n s i : String) (sn : Subnet)
    (hn : r.VpcId = some n) (hs : r.SubnetId = some s) (hi : r.InstanceId = some i)
    (hall : r.allPresent = true) (hsub : subnetAt vpcs n s = some sn) :
    (∀ out, mapInstances vpcs [some { Instances := [some r] }] = .ok out →
        ∃ e, ec2At out n s i = some e ∧
          e.Interfaces.length = r.NetworkInterfaces.length ∧
          ∀ j (h1 : j < e.Interfaces.length) (h2 : j < r.NetworkInterfaces.length),
            Carries (e.Interfaces.get ⟨j, h1⟩) (r.NetworkInterfaces.get ⟨j, h2⟩)) ∧
      (sn.EC2s ≠ none →
        ∃ out, mapInstances vpcs [some { Instances := [some r] }] = .ok out) := by
  constructor
  · intro out h
    rw [mapInstances_single] at h
    obtain ⟨e, ho, -, hat⟩ := mapInstancesStep_stored hn hs hi h
    obtain ⟨hcar, -⟩ := instanceOperands_value ho
    obtain ⟨hlen, hget⟩ := List.forall₂_iff_get.mp hcar
    exact ⟨e, hat, hlen, fun j h1 h2 => hget j h1 h2⟩
  · intro hem
    obtain ⟨em, hem⟩ := Option.ne_none_iff_exists'.mp hem
    obtain ⟨n1, s1, i1, e, ho⟩ := instanceOperands_of_allPresent hall
    obtain ⟨r1, hr, h1, h2, -⟩ := instanceOperands_ids ho
    cases hr
    rw [hn] at h1
    rw [hs] at h2
    cases h1
    cases h2
    rw [mapInstances_single, mapInstancesStep_of_operands vpcs ho]
    exact assignEC2_ok_of_subnet i1 e hsub hem

/-- C2 on the scenario: instance `i-1` with interfaces returned as `[eni-1, eni-0]`. -/
theorem mapInstances_interfaces_in_order_witness :
    (∀ out, mapInstances scenarioGraph [some { Instances := [some publicInstance] }] = .ok out →
        ∃ e, ec2At out "vpc-1" "subnet-1" "i-1" = some e ∧
          e.Interfaces.length = publicInstance.NetworkInterfaces.length ∧
          ∀ j (h1 : j < e.Interfaces.length) (h2 : j < publicInstance.NetworkInterfaces.length),
            Carries (e.Interfaces.get ⟨j, h1⟩) (publicInstance.NetworkInterfaces.get ⟨j, h2⟩)) ∧
      (scenarioSubnetValue.EC2s ≠ none →
        ∃ out, mapInstances scenarioGraph [some { Instances := [some publicInstance] }]
          = .ok out) :=
  mapInstances_interfaces_in_order scenarioGraph publicInstance "vpc-1" "subnet-1" "i-1"
    scenarioSubnetValue rfl rfl rfl (by decide) (by decide)

/-- C4, amended: for every network mapping built by seeding the networks and running
`mapSubnets`, and every instance record with all fields present whose network id is a key
of the mapping and whose subnet id is a key of that network's `Subnets` map, `mapInstances`
attaches the instance: afterwards the instance id is a key of the `EC2s` map of the subnet
it references under the network it references, and of no other `EC2s` map of the graph. -/
theorem mapInstances_attaches (seed g : GoMap VPC) (subnets : List (Option ec2.Subnet))
    (r : ec2.Instance) (n s i : String)
    (hseed : Seeded seed) (hg : mapSubnets seed subnets = .ok g)
    (hall : r.allPresent = true)
    (hn : r.VpcId = some n) (hs : r.SubnetId = some s) (hi : r.InstanceId = some i)
    (_hnet : n ∈ g) (hsub : s ∈ subnetsOf g n) :
    ∃ out, mapInstances g [some { Instances := [some r] }] = .ok out ∧
      i ∈ ec2sOf out n s ∧ ∀ k t, i ∈ ec2sOf out k t → k = n ∧ t = s := by
  have hfresh : FreshSubnets g := mapSubnets_fresh hg (freshSubnets_of_seeded hseed)
  obtain ⟨sn, hsn⟩ := Finmap.mem_iff.mp hsub
  obtain ⟨n1, s1, i1, e, ho⟩ := instanceOperands_of_allPresent hall
  obtain ⟨r1, hr, h1, h2, h3⟩ := instanceOperands_ids ho
  cases hr
  rw [hn] at h1
  rw [hs] at h2
  rw [hi] at h3
  cases h1
  cases h2
  cases h3
  obtain ⟨out, hout⟩ := assignEC2_ok_of_subnet i e hsn (hfresh n s sn hsn)
  refine ⟨out, ?_, ?_, ?_⟩
  · rw [mapInstances_single, mapInstancesStep_of_operands g ho]
    exact hout
  · rw [assignEC2_ec2sOf hout, if_pos ⟨rfl, rfl⟩, Finmap.mem_insert]
    exact Or.inl rfl
  · intro k t hmem
    rw [assignEC2_ec2sOf hout] at hmem
    by_cases hc : k = n ∧ t = s
    · exact hc
    · rw [if_neg hc, ec2sOf_of_fresh hfresh] at hmem
      exact absurd hmem Finmap.not_mem_empty

/-- C4, amended, on the scenario: instance `i-1` (with a public address) under
`vpc-1` / `subnet-1`. -/
theorem mapInstances_attaches_witness :
    ∃ out, mapInstances scenarioGraph [some { Instances := [some publicInstance] }] = .ok out ∧
      "i-1" ∈ ec2sOf out "vpc-1" "subnet-1" ∧
      ∀ k t, "i-1" ∈ ec2sOf out k t → k = "vpc-1" ∧ t = "subnet-1" :=
  mapInstances_attaches seededGraph scenarioGraph [some scenarioSubnet] publicInstance
    "vpc-1" "subnet-1" "i-1" seededGraph_seeded (by decide) (by decide) rfl rfl rfl
    (by decide) (by decide)

/-- C4 as stated fails: the mapping is built by seeding `vpc-1` and running `mapSubnets` on
`subnet-1`, the instance record has all fields present and its network id `vpc-1` is a key
of the mapping, but it references `subnet-2` and `mapInstances` faults. -/
theorem mapInstances_attaches_counterexample :
    Seeded seededGraph ∧ mapSubnets seededGraph [some scenarioSubnet] = .ok scenarioGraph ∧
      strayInstance.allPresent = true ∧ strayInstance.VpcId = some "vpc-1" ∧
      "vpc-1" ∈ scenarioGraph ∧
      mapInstances scenarioGraph [some { Instances := [some strayInstance] }]
        = .error .nilMapWrite :=
  ⟨seededGraph_seeded, by decide, by decide, rfl, by decide, by decide⟩

/-- C5, amended: for every instance record whose public address or private address is
absent, `mapInstances` faults with a nil dereference and returns no graph, whatever the
mapping holds; for every instance record with all fields present whose network and subnet
are present in the mapping with an initialised `EC2s` map, `mapInstances` completes and
attaches the instance under its subnet with both addresses recorded as given. -/
theorem mapInstances_addresses (vpcs : GoMap VPC) (r : ec2.Instance) :
    ((r.PublicIpAddress = none ∨ r.PrivateIpAddress = none) →
        mapInstances vpcs [some { Instances := [some r] }] = .error .nilDeref) ∧
      (∀ n s i sn em, r.allPresent = true → r.VpcId = some n → r.SubnetId = some s →
        r.InstanceId = some i → subnetAt vpcs n s = some sn → sn.EC2s = some em →
        ∃ out e, mapInstances vpcs [some { Instances := [some r] }] = .ok out ∧
          ec2At out n s i = some e ∧ r.PublicIpAddress = some e.PublicIP ∧
          r.PrivateIpAddress = some e.PrivateIP) := by
  constructor
  · intro habs
    rw [mapInstances_single]
    rcases ho : instanceOperands (some r) with f | t
    · exact mapInstancesStep_of_error vpcs ho
    · exfalso
      obtain ⟨r1, ifs, n, s, i, ty, st, state, pub, priv, hr, -, -, -, -, -, -, -, h7, h8,
        -⟩ := (instanceOperands_ok_iff _ _).mp ho
      cases hr
      rcases habs with h | h
      · rw [h] at h7; simp at h7
      · rw [h] at h8; simp at h8
  · intro n s i sn em hall hn hs hi hsub hem
    obtain ⟨n1, s1, i1, e, ho⟩ := instanceOperands_of_allPresent hall
    obtain ⟨r1, hr, h1, h2, h3⟩ := instanceOperands_ids ho
    cases hr
    rw [hn] at h1
    rw [hs] at h2
    rw [hi] at h3
    cases h1
    cases h2
    cases h3
    obtain ⟨out, hout⟩ := assignEC2_ok_of_subnet i e hsub hem
    have hstep : mapInstancesStep vpcs (some r) = .ok out := by
      rw [mapInstancesStep_of_operands vpcs ho]
      exact hout
    obtain ⟨e1, ho1, -, hat⟩ := mapInstancesStep_stored hn hs hi hstep
    rw [ho] at ho1
    cases ho1
    obtain ⟨-, h7, h8, -⟩ := instanceOperands_value ho
    exact ⟨out, e, by rw [mapInstances_single]; exact hstep, hat, h7, h8⟩

/-- C5, amended, on the scenario: `i-1` without a public address faults, `i-1` with a
public address is attached under `vpc-1` / `subnet-1`. -/
theorem mapInstances_addresses_witness :
    mapInstances scenarioGraph [some { Instances := [some scenarioInstance] }]
        = .error .nilDeref ∧
      ∃ out e, mapInstances scenarioGraph [some { Instances := [some publicInstance] }]
          = .ok out ∧
        ec2At out "vpc-1" "subnet-1" "i-1" = some e ∧
        publicInstance.PublicIpAddress = some e.PublicIP ∧
        publicInstance.PrivateIpAddress = some e.PrivateIP :=
  ⟨(mapInstances_addresses scenarioGraph scenarioInstance).1 (Or.inl rfl),
    (mapInstances_addresses scenarioGraph publicInstance).2 "vpc-1" "subnet-1" "i-1"
      scenarioSubnetValue ∅ (by decide) rfl rfl rfl (by decide) rfl⟩

/-- C5 as stated fails: the scenario instance `i-1` has its network `vpc-1` and its subnet
`subnet-1` in the mapping and no public address, and `mapInstances` faults instead of
attaching it; the same happens without a private address. -/
theorem mapInstances_addresses_counterexample :
    "subnet-1" ∈ subnetsOf scenarioGraph "vpc-1" ∧ scenarioInstance.PublicIpAddress = none ∧
      mapInstances scenarioGraph [some { Instances := [some scenarioInstance] }]
        = .error .nilDeref ∧
      mapInstances scenarioGraph
        [some { Instances := [some { publicInstance with PrivateIpAddress := none }] }]
        = .error .nilDeref :=
  ⟨by decide, rfl, by decide, by decide⟩
/-! ## `populateVPC` -/

/-- C7: `populateVPC` reports an aggregate failure and never exposes a partial graph. When
the accumulator holds an error after the fetchers have completed, or when the storage-volume
step returns an error, it returns an error and an empty mapping, also when networks, subnets
and instances were correlated before the volume step; when neither fails it returns the
correlated mapping and no error. Whenever it returns, it returns an error exactly in those
two cases, and with an error the mapping is empty. -/
theorem populateVPC_aggregate_failure {V : Type} (c : Collaborators V) :
    (∀ e, c.dataError = some e →
        populateVPC c = .ok (∅, some ⟨"failed to populate VPCs: " ++ e.msg⟩)) ∧
      (∀ g g1 e, c.dataError = none → correlateHead c ∅ = .ok g →
        c.instantiateVolumes g = .ok (g1, some e) →
        populateVPC c = .ok (∅, some ⟨"failed to populate VPCs: " ++ e.msg⟩)) ∧
      (∀ g g1 out, c.dataError = none → correlateHead c ∅ = .ok g →
        c.instantiateVolumes g = .ok (g1, none) → correlateRest c g1 = .ok out →
        populateVPC c = .ok (out, none)) ∧
      (∀ m err, populateVPC c = .ok (m, err) →
        (err ≠ none ↔ (c.dataError ≠ none ∨
          ∃ g g1 e, correlateHead c ∅ = .ok g ∧ c.instantiateVolumes g = .ok (g1, some e))) ∧
        (err ≠ none → m = ∅) ∧
        (err = none → ∃ g g1, correlateHead c ∅ = .ok g ∧
          c.instantiateVolumes g = .ok (g1, none) ∧ correlateRest c g1 = .ok m)) := by
  refine ⟨?_, ?_, ?_, ?_⟩
  · intro e he
    simp [populateVPC, he]
  · intro g g1 e hd hh hv
    simp [populateVPC, hd, hh, hv]
  · intro g g1 out hd hh hv hr
    simp [populateVPC, hd, hh, hv, hr]
  · intro m err h
    unfold populateVPC at h
    rcases hd : c.dataError with _ | e0
    · rw [hd] at h
      simp only at h
      rcases hh : correlateHead c ∅ with f | g
      · rw [hh] at h; simp at h
      rw [hh, ok_bind] at h
      rcases hv : c.instantiateVolumes g with f | ⟨g1, _ | e⟩
      · rw [hv] at h; simp at h
      · rw [hv, ok_bind] at h
        simp only at h
        rcases hr : correlateRest c g1 with f | out
        · rw [hr] at h; simp at h
        · rw [hr] at h
          simp at h
          obtain ⟨rfl, rfl⟩ := h
          refine ⟨?_, ?_, ?_⟩
          · constructor
            · intro hc; exact absurd rfl hc
            · rintro (hc | ⟨g2, g3, e, h2, h3⟩)
              · exact absurd rfl hc
              · cases h2
                rw [hv] at h3
                simp at h3
          · intro hc; exact absurd rfl hc
          · intro _; exact ⟨g, g1, rfl, hv, hr⟩
      · rw [hv, ok_bind] at h
        simp at h
        obtain ⟨rfl, rfl⟩ := h
        refine ⟨?_, ?_, ?_⟩
        · exact ⟨fun _ => Or.inr ⟨g, g1, e, rfl, hv⟩, fun _ => by simp⟩
        · intro _; rfl
        · intro hc; simp at hc
    · rw [hd] at h
      simp at h
      obtain ⟨rfl, rfl⟩ := h
      refine ⟨?_, ?_, ?_⟩
      · exact ⟨fun _ => Or.inl (by simp), fun _ => by simp⟩
      · intro _; rfl
      · intro hc; simp at hc

/-- C7 on the scenario: the network, the subnet and the instance are correlated, the
storage-volume step fails, and `populateVPC` returns the error with an empty mapping. -/
theorem populateVPC_aggregate_failure_witness :
    correlateHead volumesFail ∅ = .ok correlatedGraph ∧ correlatedGraph ≠ ∅ ∧
      populateVPC volumesFail = .ok (∅, some ⟨"failed to populate VPCs: " ++
        "DescribeVolumes: RequestLimitExceeded"⟩) :=
  ⟨by decide, by decide,
    (populateVPC_aggregate_failure volumesFail).2.1 correlatedGraph correlatedGraph
      ⟨"DescribeVolumes: RequestLimitExceeded"⟩ rfl (by decide) rfl⟩

/-! ## `getRegionData` -/

/-- C6: `getRegionData` isolates a failed region. If `populateVPC(r)` returns an error,
`fullData` is left as it was; if it returns a graph `g`, then afterwards `fullData[r]` holds
`g` and every other key keeps its value. Hence for regions A (succeeds) and B (fails) the
mapping of `doAllRegions` contains A and does not contain B, in whichever order the two
goroutines take the lock. -/
theorem getRegionData_isolates {V : Type}
    (populate : String → Except Fault (GoMap V × Option GoError))
    (fullData : GoMap (RegionData V)) (r : String) :
    (∀ m e, populate r = .ok (m, some e) →
        getRegionData populate fullData r = .ok fullData) ∧
      (∀ g, populate r = .ok (g, none) →
        ∃ fd, getRegionData populate fullData r = .ok fd ∧
          fd.lookup r = some { VPCs := g } ∧ ∀ k, k ≠ r → fd.lookup k = fullData.lookup k) ∧
      (∀ A B gA m e, A ≠ B → populate A = .ok (gA, none) → populate B = .ok (m, some e) →
        ∀ schedule, schedule = [A, B] ∨ schedule = [B, A] →
        ∃ fd, doAllRegions populate schedule = .ok fd ∧
          fd.lookup A = some { VPCs := gA } ∧ B ∉ fd) := by
  refine ⟨?_, ?_, ?_⟩
  · intro m e h
    simp [getRegionData, h]
  · intro g h
    refine ⟨fullData.insert r { VPCs := g }, by simp [getRegionData, h],
      Finmap.lookup_insert _, fun k hk => Finmap.lookup_insert_of_ne _ hk⟩
  · intro A B gA m e hne hA hB schedule hs
    refine ⟨(∅ : GoMap (RegionData V)).insert A { VPCs := gA }, ?_, Finmap.lookup_insert _, ?_⟩
    · rcases hs with rfl | rfl <;>
        simp [doAllRegions, getRegionData, hA, hB]
    · rw [Finmap.mem_insert]
      rintro (h | h)
      · exact hne h.symm
      · exact Finmap.not_mem_empty h

/-- C6 on two regions: `us-east-1` succeeds with the scenario graph, `eu-west-1` fails. -/
theorem getRegionData_isolates_witness :
    ∃ fd, doAllRegions populateRegions ["eu-west-1", "us-east-1"] = .ok fd ∧
      fd.lookup "us-east-1" = some { VPCs := scenarioGraph } ∧ "eu-west-1" ∉ fd :=
  (getRegionData_isolates populateRegions ∅ "us-east-1").2.2 "us-east-1" "eu-west-1"
    scenarioGraph ∅ ⟨"failed to populate VPCs: AuthFailure"⟩ (by decide) rfl rfl
    ["eu-west-1", "us-east-1"] (Or.inr rfl)
end VpcLs
